import Mathlib

/-!
# Openterface_QT: `ui/settingdialog.cpp`

A shallow embedding of the preferences dialog (`SettingDialog`) and the
properties of its frame-rate snapping, format grouping, log-filter
serialisation and page switching.

Conventions of the embedding:

* a C++ `int` is an `Int`; the two subtractions of the snapping routine are
  taken in 32-bit two's-complement arithmetic (`sub32`);
* a `std::set<int>` is the list of its elements in iteration order
  (strictly ascending), an iterator is a position in that list
  (`begin = 0`, `end = length`);
* a `std::map` is the list of its entries in iteration order under the map's
  comparator; the comparators `QSizeComparator` and
  `VideoFormatKey::operator<` are declared in `settingdialog.h` and enter as
  parameters;
* a `QString` is the list of its characters;
* a `float` is the rational number it denotes; its conversion to `int` is the truncation
  towards zero;
* a signal is delivered to the slots connected to it at once and in the order the connections
  were made; the number `fuel` bounds how deep such deliveries may nest (with the connections
  of `createVideoPage` three levels are enough in every state of the slider and the spin box:
  `setFpsRange_total`).
-/

namespace Openterface

/-! ## `std::set<int>` -/

/-- A `std::set<int>`: its elements in iteration order. -/
abbrev IntSet := List Int

/-- Position returned by `std::set<int>::lower_bound(v)`: the first element that is not less
than `v` (`end` when there is none). -/
def lowerBound : IntSet → Int → Nat
  | [], _ => 0
  | x :: xs, v => if x < v then lowerBound xs v + 1 else 0

/-- Position returned by `std::set<int>::upper_bound(v)`: the first element greater than `v`
(`end` when there is none). -/
def upperBound : IntSet → Int → Nat
  | [], _ => 0
  | x :: xs, v => if v < x then 0 else upperBound xs v + 1

/-- Position returned by `std::set<int>::find(v)`: the element equivalent to `v`, or `end`. -/
def setFind (s : IntSet) (v : Int) : Nat :=
  let it := lowerBound s v
  if it ≠ s.length ∧ ¬ (v < s.getD it 0) then it else s.length

/-- Dereference of an iterator, `*it`. -/
def deref (s : IntSet) (it : Nat) : Int := s.getD it 0

/-- The effect of `std::set<int>::insert(x)`. -/
def setInsert (x : Int) : IntSet → IntSet
  | [] => [x]
  | y :: ys => if x < y then x :: y :: ys else if y < x then y :: setInsert x ys else y :: ys

/-- The invariant of a `std::set<int>`: strictly ascending iteration order. -/
def IsSet (s : IntSet) : Prop := s.Pairwise (· < ·)

instance (s : IntSet) : Decidable (IsSet s) := by unfold IsSet; infer_instance

/-! ## 32-bit arithmetic -/

/-- Reduction of an integer to the range of a 32-bit `int` (two's complement). -/
def wrapInt32 (x : Int) : Int := (x + 2147483648) % 4294967296 - 2147483648

/-- Subtraction of two `int`s. -/
def sub32 (a b : Int) : Int := wrapInt32 (a - b)

/-! ## `onFpsSliderValueChanged`: the snapping computation (lines 238-250) -/

/-- The value of `nearestValue` when control reaches `fpsSlider->setValue(nearestValue)`,
that is, inside the branch `fpsValues.find(value) == fpsValues.end()`. -/
def nearestValue (fpsValues : IntSet) (value : Int) : Int :=
  let lower := lowerBound fpsValues value
  let upper := upperBound fpsValues value
  if lower ≠ fpsValues.length ∧ upper ≠ 0 then
    let upper := upper - 1
    if sub32 value (deref fpsValues upper) ≤ sub32 (deref fpsValues lower) value
    then deref fpsValues upper else deref fpsValues lower
  else if lower ≠ fpsValues.length then deref fpsValues lower
  else if upper ≠ 0 then deref fpsValues (upper - 1)
  else value

/-- The value the routine selects for the slider: `value` itself when it is found in the set
(nothing is set), `nearestValue` otherwise. -/
def selectedValue (fpsValues : IntSet) (value : Int) : Int :=
  if setFind fpsValues value = fpsValues.length then nearestValue fpsValues value else value

/-! ## `QString` -/

/-- A `QString`: the list of its characters. -/
abbrev QString := List Char

/-- A string literal of the source. -/
def qs (s : String) : QString := s.toList

/-- The decimal digit for a value below ten. -/
def digitChar (d : Nat) : Char := Char.ofNat (48 + d)

/-- The value `QChar::digitValue` gives for the ASCII digits, `none` standing for `-1`. -/
def digitValue (c : Char) : Option Nat :=
  if 48 ≤ c.toNat ∧ c.toNat ≤ 57 then some (c.toNat - 48) else none

/-- `QChar::isSpace` on the ASCII range: the blank and the controls tab to carriage return. -/
def isSpace (c : Char) : Bool := c.toNat = 32 || (9 ≤ c.toNat && c.toNat ≤ 13)

/-- Digits of a natural number, most significant first, pushed in front of `acc`.
The first argument bounds the number of digits. -/
def natDigitsAux : Nat → Nat → QString → QString
  | 0, _, acc => acc
  | fuel + 1, n, acc =>
    if n / 10 = 0 then digitChar (n % 10) :: acc
    else natDigitsAux fuel (n / 10) (digitChar (n % 10) :: acc)

/-- Decimal text of a natural number. -/
def natDigits (n : Nat) : QString := natDigitsAux (n + 1) n []

/-- The text `QString::number(int)` and `QString::arg(int)` produce for an `int`:
base ten, a minus sign in front of a negative number. -/
def number (n : Int) : QString :=
  if n < 0 then '-' :: natDigits n.natAbs else natDigits n.toNat

/-- `QString::split(QChar)` with the default `Qt::KeepEmptyParts`. -/
def split (sep : Char) : QString → List QString
  | [] => [[]]
  | c :: cs =>
    if c = sep then [] :: split sep cs
    else match split sep cs with
      | [] => [[c]]
      | p :: ps => (c :: p) :: ps

/-- `QString::trimmed`: white space removed from both ends. -/
def trimmed (s : QString) : QString :=
  ((s.dropWhile isSpace).reverse.dropWhile isSpace).reverse

/-- The value of a run of decimal digits. -/
def digitsValue (ds : QString) : Nat :=
  ds.foldl (fun acc c => acc * 10 + (digitValue c).getD 0) 0

/-- `QString::toInt()` in base ten: surrounding white space is ignored, one sign is accepted, and
`0` is returned when the text is not a number or does not fit an `int`. -/
def toInt (s : QString) : Int :=
  let t := trimmed s
  let negative := t.head? = some '-'
  let ds := if t.head? = some '-' ∨ t.head? = some '+' then t.tail else t
  if ds ≠ [] ∧ ds.all (fun c => (digitValue c).isSome) then
    let v : Int := if negative then -(digitsValue ds : Int) else (digitsValue ds : Int)
    if -2147483648 ≤ v ∧ v < 2147483648 then v else 0
  else 0

/-- One piece of a format string: a plain character, or a place marker `%n` with the text it
was written as. -/
inductive Piece where
  | text (c : Char)
  | marker (n : Nat) (raw : QString)
  deriving DecidableEq, Repr

/-- What the scan for place markers has read so far. -/
inductive Scan where
  | normal
  | percent
  | digit (d : Nat) (c : Char)
  deriving DecidableEq, Repr

/-- The scan of `QString::arg` for place markers: a `%` followed by one or two digits. The
locale form `%L1` does not occur in this file and is not modelled. -/
def scanPieces : Scan → QString → List Piece
  | .normal, [] => []
  | .percent, [] => [.text '%']
  | .digit d c, [] => [.marker d ['%', c]]
  | .normal, c :: cs =>
    if c = '%' then scanPieces .percent cs else .text c :: scanPieces .normal cs
  | .percent, c :: cs =>
    match digitValue c with
    | some d => scanPieces (.digit d c) cs
    | none =>
      if c = '%' then .text '%' :: scanPieces .percent cs
      else .text '%' :: .text c :: scanPieces .normal cs
  | .digit d c0, c :: cs =>
    match digitValue c with
    | some e => .marker (d * 10 + e) ['%', c0, c] :: scanPieces .normal cs
    | none =>
      if c = '%' then .marker d ['%', c0] :: scanPieces .percent cs
      else .marker d ['%', c0] :: .text c :: scanPieces .normal cs

/-- The lowest place-marker number among the pieces. -/
def minMarker : List Piece → Option Nat
  | [] => none
  | .text _ :: ps => minMarker ps
  | .marker n _ :: ps =>
    match minMarker ps with
    | none => some n
    | some m => some (min n m)

/-- The pieces written out, every marker numbered `m` replaced by `a`. -/
def render (m : Nat) (a : QString) : List Piece → QString
  | [] => []
  | .text c :: ps => c :: render m a ps
  | .marker n raw :: ps => (if n = m then a else raw) ++ render m a ps

/-- `QString::arg(const QString &)` with field width zero: every occurrence of the
lowest-numbered place marker is replaced; a string without a marker is returned as it is. -/
def arg (s a : QString) : QString :=
  match minMarker (scanPieces .normal s) with
  | none => s
  | some m => render m a (scanPieces .normal s)

/-! ## Sizes, camera formats and the two maps -/

/-- A `QSize`. -/
structure QSize where
  width : Int
  height : Int
  deriving DecidableEq, Repr

/-- The default-constructed `QSize()`. -/
def QSize.default : QSize := ⟨-1, -1⟩

/-- The enumeration `QVideoFrameFormat::PixelFormat`, by enumerator value (`0` is
`Format_Invalid`); the structures below hold it as a `Nat`. -/
abbrev PixelFormat := Nat

/-- The data behind a non-null `QCameraFormat`. The frame rates are `float`s. -/
structure QCameraFormatPrivate where
  resolution : QSize
  minFrameRate : ℚ
  maxFrameRate : ℚ
  pixelFormat : Nat
  deriving DecidableEq, Repr

/-- A `QCameraFormat`: a handle that is null (`d = none`) when default-constructed. -/
structure QCameraFormat where
  d : Option QCameraFormatPrivate
  deriving DecidableEq, Repr

/-- The default-constructed `QCameraFormat()`. -/
def QCameraFormat.null : QCameraFormat := ⟨none⟩

/-- `QCameraFormat::resolution()`. -/
def QCameraFormat.resolution (f : QCameraFormat) : QSize :=
  match f.d with
  | some d => d.resolution
  | none => QSize.default

/-- `QCameraFormat::minFrameRate()`. -/
def QCameraFormat.minFrameRate (f : QCameraFormat) : ℚ :=
  match f.d with
  | some d => d.minFrameRate
  | none => 0

/-- `QCameraFormat::pixelFormat()`. -/
def QCameraFormat.pixelFormat (f : QCameraFormat) : PixelFormat :=
  match f.d with
  | some d => d.pixelFormat
  | none => 0

/-- The key of `videoFormatMap`. -/
structure VideoFormatKey where
  resolution : QSize
  frameRate : Int
  pixelFormat : Nat
  deriving DecidableEq, Repr

/-- The conversion of a `float` to `int`, as in `int frameRate = format.minFrameRate()`
(line 262): the fractional part is dropped. (For a value whose truncation does not fit an `int`
the conversion is undefined in C++; frame rates are far from there.) -/
def floatToInt (x : ℚ) : Int :=
  if 0 ≤ x.num then x.num / x.den else -((-x.num) / x.den)

/-- The key the loop of `populateResolutionBox` builds for a format (lines 261-265). -/
def keyOf (f : QCameraFormat) : VideoFormatKey :=
  ⟨f.resolution, floatToInt f.minFrameRate, f.pixelFormat⟩

/-- A `std::map<K, V, Compare>`: its entries in iteration order. -/
abbrev StdMap (K V : Type) := List (K × V)

/-- `std::map::find`: the value at the first entry whose key is not less than `k`, when that key
is not greater than `k` either. -/
def mapFind {K V : Type} (lt : K → K → Bool) (k : K) : StdMap K V → Option V
  | [] => none
  | (k1, v1) :: rest =>
    if lt k1 k then mapFind lt k rest
    else if lt k k1 then none
    else some v1

/-- `m[k]` followed by an update `f` of the referenced value: the entry for `k` is created with
the default value `dflt` when the map has none. -/
def mapIndex {K V : Type} (lt : K → K → Bool) (k : K) (dflt : V) (f : V → V) :
    StdMap K V → StdMap K V
  | [] => [(k, f dflt)]
  | (k1, v1) :: rest =>
    if lt k1 k then (k1, v1) :: mapIndex lt k dflt f rest
    else if lt k k1 then (k, f dflt) :: (k1, v1) :: rest
    else (k1, f v1) :: rest

/-- The invariant of a `std::map`: keys strictly ascending under the comparator. -/
def IsMap {K V : Type} (lt : K → K → Bool) (m : StdMap K V) : Prop :=
  m.Pairwise (fun a b => lt a.1 b.1 = true)

/-- A comparator that is a strict total order. -/
structure StrictTotal {K : Type} (lt : K → K → Bool) : Prop where
  irrefl : ∀ a, lt a a = false
  trans : ∀ a b c, lt a b = true → lt b c = true → lt a c = true
  total : ∀ a b, a ≠ b → lt a b = true ∨ lt b a = true

/-- One pass of the loop of `populateResolutionBox` (lines 260-269) over `videoFormatMap`. -/
def stepFormatMap (keyLt : VideoFormatKey → VideoFormatKey → Bool)
    (m : StdMap VideoFormatKey QCameraFormat) (format : QCameraFormat) :
    StdMap VideoFormatKey QCameraFormat :=
  mapIndex keyLt (keyOf format) QCameraFormat.null (fun _ => format) m

/-- One pass of the loop of `populateResolutionBox` over `resolutionSampleRates`. -/
def stepSampleRates (sizeLt : QSize → QSize → Bool)
    (m : StdMap QSize IntSet) (format : QCameraFormat) : StdMap QSize IntSet :=
  mapIndex sizeLt format.resolution [] (setInsert (floatToInt format.minFrameRate)) m

/-- The first loop of `populateResolutionBox` (lines 260-269): it starts from the member
`videoFormatMap` and an empty local `resolutionSampleRates`. -/
def populateLoop (sizeLt : QSize → QSize → Bool)
    (keyLt : VideoFormatKey → VideoFormatKey → Bool)
    (videoFormatMap : StdMap VideoFormatKey QCameraFormat) (videoFormats : List QCameraFormat) :
    StdMap VideoFormatKey QCameraFormat × StdMap QSize IntSet :=
  videoFormats.foldl
    (fun acc format => (stepFormatMap keyLt acc.1 format, stepSampleRates sizeLt acc.2 format))
    (videoFormatMap, [])

/-- The local map `resolutionSampleRates` after the first loop of `populateResolutionBox`. -/
def resolutionSampleRates (sizeLt : QSize → QSize → Bool)
    (keyLt : VideoFormatKey → VideoFormatKey → Bool) (videoFormats : List QCameraFormat) :
    StdMap QSize IntSet :=
  (populateLoop sizeLt keyLt [] videoFormats).2

/-- The text of a combo-box item (line 288). -/
def itemText (resolution : QSize) (minSampleRate maxSampleRate : Int) : QString :=
  arg (arg (arg (arg (qs "%1x%2 [%3 - %4 Hz]") (number resolution.width))
    (number resolution.height)) (number minSampleRate)) (number maxSampleRate)

/-! ## Widgets

A widget is a record of the state the dialog reads and writes. The functions on one widget
give the effect of a Qt call on that widget alone; the calls the dialog makes on the connected
slider and spin box, which also deliver `valueChanged`, are `SettingDialog.setValue`,
`SettingDialog.sliderSetRange` and `SettingDialog.spinBoxSetRange` below. -/

/-- What a failed run stops with. -/
inductive Fault where
  | nullDereference
  | indexOutOfRange
  | outOfFuel
  deriving DecidableEq, Repr

/-- A `QVariant` that is invalid or holds a `std::set<int>`. -/
abbrev QVariant := Option IntSet

/-- `QVariant::value<std::set<int>>()`: a default-constructed set for an invalid variant. -/
def variantValue (v : QVariant) : IntSet := v.getD []

/-- The state of a `QComboBox`: item texts with their user data, and the current index
(`-1` when there is none). -/
structure QComboBox where
  items : List (QString × QVariant) := []
  currentIndex : Int := -1
  deriving DecidableEq, Repr

/-- `QComboBox::addItem(text, userData)`: the first item of an empty box becomes current. -/
def QComboBox.addItem (b : QComboBox) (text : QString) (userData : QVariant) : QComboBox :=
  { items := b.items ++ [(text, userData)],
    currentIndex := if b.items.isEmpty then 0 else b.currentIndex }

/-- `QComboBox::itemData(index)`. -/
def QComboBox.itemData (b : QComboBox) (index : Int) : QVariant :=
  if index < 0 then none else (b.items.get? index.toNat).bind (fun it => it.2)

/-- `QComboBox::currentText()`. -/
def QComboBox.currentText (b : QComboBox) : QString :=
  if b.currentIndex < 0 then [] else ((b.items.get? b.currentIndex.toNat).map (fun it => it.1)).getD []

/-- `SettingDialog::boxValue` (lines 187-191). -/
def boxValue (box : QComboBox) : QVariant :=
  let idx := box.currentIndex
  if idx ≠ -1 then box.itemData idx else none

/-- Qt's bounding of a value to a range. -/
def bound (lo hi v : Int) : Int := max lo (min hi v)

/-- The state of a `QSlider`, with the defaults of a new one. -/
structure QSlider where
  minimum : Int := 0
  maximum : Int := 99
  value : Int := 0
  deriving DecidableEq, Repr

/-- `QAbstractSlider::setValue` on a slider nothing is connected to. -/
def QSlider.setValue (s : QSlider) (v : Int) : QSlider :=
  { s with value := bound s.minimum s.maximum v }

/-- The state of an `FpsSpinBox` (a `QSpinBox`), with the defaults of a new one; `validValues` is
the set the last call of `setValidValues` was given. -/
structure FpsSpinBox where
  minimum : Int := 0
  maximum : Int := 99
  value : Int := 0
  validValues : IntSet := []
  deriving DecidableEq, Repr

/-- A call of `FpsSpinBox::setValidValues`. The class is declared in `ui/fpsspinbox.h`, which is
not among the sources: the call is recorded with the set it was given, and what the spin box
does with that set is not part of the model. -/
def FpsSpinBox.setValidValues (s : FpsSpinBox) (values : IntSet) : FpsSpinBox :=
  { s with validValues := values }

/-- The classes of the objects the dialog creates. -/
inductive WidgetClass where
  | QWidget
  | QLabel
  | QComboBox
  | QSlider
  | QSpinBox
  | FpsSpinBox
  | QCheckBox
  deriving DecidableEq, Repr

/-- Whether `qobject_cast<T*>` succeeds on an object of class `c`: `c` is `T` or derives from it.
`FpsSpinBox` derives from `QSpinBox` (line 174 connects `QSpinBox::valueChanged` on one). -/
def WidgetClass.inherits (c T : WidgetClass) : Bool :=
  c = T || T = .QWidget || (c = .FpsSpinBox && T = .QSpinBox)

/-- The state a child widget carries. -/
inductive WidgetState where
  | plain
  | comboBox (box : QComboBox)
  | slider (s : QSlider)
  | spinBox (s : FpsSpinBox)
  | checkBox (checked : Bool)
  deriving DecidableEq, Repr

/-- A child widget of a page. -/
structure Child where
  cls : WidgetClass
  objectName : QString
  state : WidgetState
  deriving DecidableEq, Repr

/-- A page: its child widgets in the order they were given to it. -/
abbrev Page := List Child

/-- `findChild<T*>(name)`: the position of the first child that casts to `T` and has the object
name `name`; `none` is the null pointer. -/
def findChild (T : WidgetClass) (name : QString) : Page → Option Nat
  | [] => none
  | c :: cs =>
    if c.cls.inherits T && decide (c.objectName = name) then some 0
    else (findChild T name cs).map (· + 1)

/-- Replace the child at a position. -/
def modifyAt (f : Child → Child) : Nat → Page → Page
  | _, [] => []
  | 0, c :: cs => f c :: cs
  | i + 1, c :: cs => c :: modifyAt f i cs

/-- A call of a `QSlider` member through a pointer. -/
def callSlider (p : Page) (ptr : Option Nat) (f : QSlider → QSlider) : Except Fault Page :=
  match ptr with
  | none => .error .nullDereference
  | some i =>
    .ok (modifyAt (fun c => match c.state with
      | .slider s => { c with state := .slider (f s) }
      | _ => c) i p)

/-- A call of an `FpsSpinBox` member through a pointer. -/
def callSpinBox (p : Page) (ptr : Option Nat) (f : FpsSpinBox → FpsSpinBox) :
    Except Fault Page :=
  match ptr with
  | none => .error .nullDereference
  | some i =>
    .ok (modifyAt (fun c => match c.state with
      | .spinBox s => { c with state := .spinBox (f s) }
      | _ => c) i p)

/-- A call of a `QComboBox` member through a pointer. -/
def callComboBox (p : Page) (ptr : Option Nat) (f : QComboBox → QComboBox) :
    Except Fault Page :=
  match ptr with
  | none => .error .nullDereference
  | some i =>
    .ok (modifyAt (fun c => match c.state with
      | .comboBox b => { c with state := .comboBox (f b) }
      | _ => c) i p)

/-- The state of the child at a position. -/
def stateAt (p : Page) (i : Nat) : Option WidgetState := (p.get? i).map Child.state

/-- The slider a pointer refers to. -/
def sliderAt (p : Page) (ptr : Option Nat) : Except Fault QSlider :=
  match ptr with
  | none => .error .nullDereference
  | some i =>
    match stateAt p i with
    | some (.slider s) => .ok s
    | _ => .error .nullDereference

/-- The spin box a pointer refers to. -/
def spinBoxAt (p : Page) (ptr : Option Nat) : Except Fault FpsSpinBox :=
  match ptr with
  | none => .error .nullDereference
  | some i =>
    match stateAt p i with
    | some (.spinBox s) => .ok s
    | _ => .error .nullDereference

/-- The combo box a pointer refers to. -/
def comboBoxAt (p : Page) (ptr : Option Nat) : Except Fault QComboBox :=
  match ptr with
  | none => .error .nullDereference
  | some i =>
    match stateAt p i with
    | some (.comboBox b) => .ok b
    | _ => .error .nullDereference

/-- The test `box && box->isChecked()` on a check-box pointer. -/
def checkedAt (p : Page) (ptr : Option Nat) : Bool :=
  match ptr with
  | none => false
  | some i =>
    match stateAt p i with
    | some (.checkBox b) => b
    | _ => false

/-- A label. -/
def labelChild : Child := ⟨.QLabel, [], .plain⟩

/-- The children of the page `createLogPage` builds (lines 97-122), with the states of the four
check boxes. -/
def logPageOf (core serial ui host : Bool) : Page :=
  [ labelChild,
    ⟨.QCheckBox, qs "core", .checkBox core⟩,
    ⟨.QCheckBox, qs "serial", .checkBox serial⟩,
    ⟨.QCheckBox, qs "ui", .checkBox ui⟩,
    ⟨.QCheckBox, qs "host", .checkBox host⟩ ]

/-- The children of the page `createVideoPage` builds (lines 125-155), with the states of its
four input widgets. -/
def videoPageOf (videoFormatBox : QComboBox) (fpsSpinBox : FpsSpinBox) (fpsSlider : QSlider)
    (pixelFormatBox : QComboBox) : Page :=
  [ labelChild,
    labelChild,
    ⟨.QComboBox, qs "videoFormatBox", .comboBox videoFormatBox⟩,
    labelChild,
    ⟨.FpsSpinBox, qs "fpsSpinBox", .spinBox fpsSpinBox⟩,
    ⟨.QSlider, qs "fpsSlider", .slider fpsSlider⟩,
    labelChild,
    ⟨.QComboBox, qs "pixelFormatBox", .comboBox pixelFormatBox⟩ ]

/-- The children of the page `createAudioPage` builds (lines 301-334). -/
def audioPageNew : Page :=
  [ labelChild,
    labelChild,
    ⟨.QComboBox, qs "audioCodecBox", .comboBox {}⟩,
    labelChild,
    ⟨.QSpinBox, qs "audioSampleRateBox", .plain⟩,
    labelChild,
    ⟨.QSlider, qs "qualitySlider", .slider {}⟩,
    labelChild,
    ⟨.QComboBox, qs "containerFormatBox", .comboBox {}⟩ ]

/-! ## The dialog -/

/-- An item of the one-column settings tree. -/
structure QTreeWidgetItem where
  text : QString
  deriving DecidableEq, Repr

/-- The page members of the dialog. -/
inductive PageId where
  | logPage
  | videoPage
  | audioPage
  deriving DecidableEq, Repr

/-- The state of the `QStackedWidget`: the pages added, and the current index (`-1` while it is
empty). -/
structure QStackedWidget where
  widgets : List PageId := []
  currentIndex : Int := -1
  deriving DecidableEq, Repr

/-- `QStackedWidget::addWidget`: the page is appended; the first page becomes current. -/
def QStackedWidget.addWidget (w : QStackedWidget) (page : PageId) : QStackedWidget :=
  { widgets := w.widgets ++ [page],
    currentIndex := if w.widgets.isEmpty then 0 else w.currentIndex }

/-- `QStackedWidget::setCurrentIndex`: an index without a page is ignored. -/
def QStackedWidget.setCurrentIndex (w : QStackedWidget) (index : Int) : QStackedWidget :=
  if 0 ≤ index ∧ index < w.widgets.length then { w with currentIndex := index } else w

/-- The connections the dialog makes, by sender, signal and receiving slot. -/
inductive Connection where
  | videoFormatBox_currentIndexChanged_lambda
  | fpsSlider_valueChanged_fpsSpinBox_setValue
  | fpsSpinBox_valueChanged_fpsSlider_setValue
  | fpsSlider_valueChanged_onFpsSliderValueChanged
  | okButton_clicked_handleOkButton
  | cancelButton_clicked_reject
  | applyButton_clicked_applyAccrodingPage
  | settingTree_currentItemChanged_changePage
  deriving DecidableEq, Repr

/-- A `QCameraDevice`: whether it is null, and the formats it reports. -/
structure QCameraDevice where
  isNull : Bool
  videoFormats : List QCameraFormat
  deriving DecidableEq, Repr

/-- A `QCamera`, as far as the dialog reads it. -/
structure QCamera where
  cameraDevice : QCameraDevice
  deriving DecidableEq, Repr

/-- The state of a `SettingDialog`, together with what it acts on outside itself: the
process-wide logging filter rules, the warnings logged and the calls queued on the event loop. -/
structure SettingDialog where
  camera : Option QCamera
  settingTree : List QTreeWidgetItem := []
  stackedWidget : QStackedWidget := {}
  logPage : Option Page := none
  videoPage : Option Page := none
  audioPage : Option Page := none
  videoFormatMap : StdMap VideoFormatKey QCameraFormat := []
  m_currentResolution : QSize := QSize.default
  connections : List Connection := []
  queuedSetCurrentIndex : List Int := []
  filterRules : QString := []
  warnings : List QString := []
  accepted : Bool := false
  deriving DecidableEq, Repr

/-- The two widgets whose `valueChanged` is connected: the slider "fpsSlider" and the spin box
"fpsSpinBox" of the video page. -/
inductive Sender where
  | fpsSlider
  | fpsSpinBox
  deriving DecidableEq, Repr

namespace SettingDialog

/-- `createSettingTree` (lines 79-95). -/
def createSettingTree (st : SettingDialog) : SettingDialog :=
  let names := [qs "Log", qs "Video", qs "Audio"]
  { st with settingTree := st.settingTree ++ names.map (fun name => ⟨name⟩) }

/-- `createLogPage` (lines 97-122). -/
def createLogPage (st : SettingDialog) : SettingDialog :=
  { st with logPage := some (logPageOf false false false false) }

/-- `getVideoFormat` (lines 197-205). -/
def getVideoFormat (keyLt : VideoFormatKey → VideoFormatKey → Bool) (st : SettingDialog)
    (resolution : QSize) (frameRate : Int) (pixelFormat : PixelFormat) : QCameraFormat :=
  let key : VideoFormatKey := ⟨resolution, frameRate, pixelFormat⟩
  match mapFind keyLt key st.videoFormatMap with
  | some format => format
  | none => QCameraFormat.null

/-- `onFpsSliderValueChanged` (lines 232-254). -/
def onFpsSliderValueChanged (st : SettingDialog) (value : Int) : Except Fault SettingDialog :=
  match st.videoPage with
  | none => .error .nullDereference
  | some page =>
    let videoFormatBox := findChild .QComboBox (qs "videoFormatBox") page
    let fpsSlider := findChild .QSlider (qs "fpsSpinBox") page
    do
      let box ← comboBoxAt page videoFormatBox
      let fpsValues := variantValue (boxValue box)
      if setFind fpsValues value = fpsValues.length then
        let page ← callSlider page fpsSlider (fun s => s.setValue (nearestValue fpsValues value))
        pure { st with videoPage := some page }
      else pure st

/-- The effect of `setValue` on the widget itself: the value is bounded to the range of the
widget; `none` when that is the value it has (nothing is emitted then), otherwise the dialog
with the new value, and the value `valueChanged` is emitted with. -/
def changeValue (sender : Sender) (st : SettingDialog) (v : Int) :
    Except Fault (Option (SettingDialog × Int)) :=
  match st.videoPage with
  | none => .error .nullDereference
  | some page =>
    match sender with
    | .fpsSlider =>
      let fpsSlider := findChild .QSlider (qs "fpsSlider") page
      match sliderAt page fpsSlider with
      | .error e => .error e
      | .ok s =>
        let value := bound s.minimum s.maximum v
        if value = s.value then .ok none
        else
          match callSlider page fpsSlider (fun s => { s with value := value }) with
          | .error e => .error e
          | .ok page1 => .ok (some ({ st with videoPage := some page1 }, value))
    | .fpsSpinBox =>
      let fpsSpinBox := findChild .FpsSpinBox (qs "fpsSpinBox") page
      match spinBoxAt page fpsSpinBox with
      | .error e => .error e
      | .ok s =>
        let value := bound s.minimum s.maximum v
        if value = s.value then .ok none
        else
          match callSpinBox page fpsSpinBox (fun s => { s with value := value }) with
          | .error e => .error e
          | .ok page1 => .ok (some ({ st with videoPage := some page1 }, value))

/-- The slot a connection runs when `sender` emits `valueChanged(value)`; `setValue` is the
call of `setValue` on the slider or the spin box. A connection of another signal runs
nothing. -/
def slotOf (setValue : Sender → SettingDialog → Int → Except Fault SettingDialog)
    (sender : Sender) (value : Int) (connection : Connection) (st : SettingDialog) :
    Except Fault SettingDialog :=
  match sender, connection with
  | .fpsSlider, .fpsSlider_valueChanged_fpsSpinBox_setValue => setValue .fpsSpinBox st value
  | .fpsSlider, .fpsSlider_valueChanged_onFpsSliderValueChanged =>
    st.onFpsSliderValueChanged value
  | .fpsSpinBox, .fpsSpinBox_valueChanged_fpsSlider_setValue => setValue .fpsSlider st value
  | _, _ => .ok st

/-- The delivery of one emission: the slots run one after the other, in the order of the
connections, each on the state the one before has left. -/
def deliverAll (slot : Connection → SettingDialog → Except Fault SettingDialog) :
    List Connection → SettingDialog → Except Fault SettingDialog
  | [], st => .ok st
  | connection :: rest, st =>
    match slot connection st with
    | .ok st1 => deliverAll slot rest st1
    | .error e => .error e

/-- The call `fpsSlider->setValue(v)` or `fpsSpinBox->setValue(v)` (`QAbstractSlider::setValue`,
`QSpinBox::setValue`): when the bounded value differs from the present one it is stored and
`valueChanged` is emitted, which runs the connected slots. -/
def setValue : Nat → Sender → SettingDialog → Int → Except Fault SettingDialog
  | 0, sender, st, v =>
    match changeValue sender st v with
    | .error e => .error e
    | .ok none => .ok st
    | .ok (some _) => .error .outOfFuel
  | fuel + 1, sender, st, v =>
    match changeValue sender st v with
    | .error e => .error e
    | .ok none => .ok st
    | .ok (some (st1, value)) =>
      deliverAll (slotOf (setValue fuel) sender value) st1.connections st1

/-- The call `fpsSlider->setRange(lo, hi)` (`QAbstractSlider::setRange`): when the range changes,
the value is bounded to the new range through `setValue`. -/
def sliderSetRange (fuel : Nat) (st : SettingDialog) (lo hi : Int) :
    Except Fault SettingDialog :=
  match st.videoPage with
  | none => .error .nullDereference
  | some page =>
    let fpsSlider := findChild .QSlider (qs "fpsSlider") page
    match sliderAt page fpsSlider with
    | .error e => .error e
    | .ok s =>
      if s.minimum = lo ∧ s.maximum = max lo hi then .ok st
      else
        match callSlider page fpsSlider
            (fun s => { s with minimum := lo, maximum := max lo hi }) with
        | .error e => .error e
        | .ok page1 => setValue fuel .fpsSlider { st with videoPage := some page1 } s.value

/-- The call `fpsSpinBox->setRange(lo, hi)` (`QSpinBox::setRange`): the range is stored and the
value is bounded to it through `setValue`. -/
def spinBoxSetRange (fuel : Nat) (st : SettingDialog) (lo hi : Int) :
    Except Fault SettingDialog :=
  match st.videoPage with
  | none => .error .nullDereference
  | some page =>
    let fpsSpinBox := findChild .FpsSpinBox (qs "fpsSpinBox") page
    match spinBoxAt page fpsSpinBox with
    | .error e => .error e
    | .ok s =>
      match callSpinBox page fpsSpinBox
          (fun s => { s with minimum := lo, maximum := max lo hi }) with
      | .error e => .error e
      | .ok page1 => setValue fuel .fpsSpinBox { st with videoPage := some page1 } s.value

/-- The call `fpsSpinBox->setValidValues(values)`. -/
def spinBoxSetValidValues (st : SettingDialog) (values : IntSet) : Except Fault SettingDialog :=
  match st.videoPage with
  | none => .error .nullDereference
  | some page =>
    match callSpinBox page (findChild .FpsSpinBox (qs "fpsSpinBox") page)
        (fun s => s.setValidValues values) with
    | .error e => .error e
    | .ok page1 => .ok { st with videoPage := some page1 }

/-- The value `fpsSlider->value()` returns. -/
def sliderValue (st : SettingDialog) : Except Fault Int :=
  match st.videoPage with
  | none => .error .nullDereference
  | some page =>
    match sliderAt page (findChild .QSlider (qs "fpsSlider") page) with
    | .error e => .error e
    | .ok s => .ok s.value

/-- The four calls of lines 215-218 of `setFpsRange`. -/
def setFpsRangeSetters (fuel : Nat) (st : SettingDialog) (fpsValues : IntSet) :
    Except Fault SettingDialog :=
  let minFps := deref fpsValues 0
  let maxFps := deref fpsValues (fpsValues.length - 1)
  match st.sliderSetRange fuel minFps maxFps with
  | .error e => .error e
  | .ok st1 =>
    match st1.setValue fuel .fpsSlider maxFps with
    | .error e => .error e
    | .ok st2 =>
      match st2.spinBoxSetRange fuel minFps maxFps with
      | .error e => .error e
      | .ok st3 => st3.spinBoxSetValidValues fpsValues

/-- `setFpsRange` (lines 207-230). -/
def setFpsRange (fuel : Nat) (st : SettingDialog) (fpsValues : IntSet) :
    Except Fault SettingDialog :=
  if fpsValues ≠ [] then
    match st.setFpsRangeSetters fuel fpsValues with
    | .error e => .error e
    | .ok st1 =>
      match st1.sliderValue with
      | .error e => .error e
      | .ok currentSliderValue =>
        match (if setFind fpsValues currentSliderValue = fpsValues.length then
            st1.setValue fuel .fpsSlider (deref fpsValues (fpsValues.length - 1))
          else .ok st1) with
        | .error e => .error e
        | .ok st2 =>
          .ok { st2 with connections :=
            st2.connections ++ [Connection.fpsSlider_valueChanged_onFpsSliderValueChanged] }
  else .ok st

/-- The body of the second loop of `populateResolutionBox` (lines 273-296) for one entry. -/
def addResolutionItem (st : SettingDialog) (resolution : QSize) (sampleRates : IntSet) :
    Except Fault SettingDialog :=
  if sampleRates ≠ [] then
    let minSampleRate := deref sampleRates 0
    let maxSampleRate := deref sampleRates (sampleRates.length - 1)
    let text := itemText resolution minSampleRate maxSampleRate
    match st.videoPage with
    | none => .error .nullDereference
    | some page =>
      let videoFormatBox := findChild .QComboBox (qs "videoFormatBox") page
      do
        let page ← callComboBox page videoFormatBox (fun b => b.addItem text (some sampleRates))
        pure { st with videoPage := some page }
  else .ok st

/-- The second loop of `populateResolutionBox` (lines 272-297). -/
def addResolutionItems : SettingDialog → StdMap QSize IntSet → Except Fault SettingDialog
  | st, [] => .ok st
  | st, entry :: rest =>
    match addResolutionItem st entry.1 entry.2 with
    | .ok st1 => addResolutionItems st1 rest
    | .error e => .error e

/-- `populateResolutionBox` (lines 256-298). -/
def populateResolutionBox (sizeLt : QSize → QSize → Bool)
    (keyLt : VideoFormatKey → VideoFormatKey → Bool) (st : SettingDialog)
    (videoFormats : List QCameraFormat) : Except Fault SettingDialog :=
  let maps := populateLoop sizeLt keyLt st.videoFormatMap videoFormats
  addResolutionItems { st with videoFormatMap := maps.1 } maps.2

/-- The parse of a combo-box text into a resolution (lines 169-171 and 178-180). -/
def parseResolution (resolutionText : QString) : Except Fault QSize :=
  match split ' ' resolutionText with
  | [] => .error .indexOutOfRange
  | first :: _ =>
    let resolutionParts := split 'x' first
    match resolutionParts.get? 0, resolutionParts.get? 1 with
    | some w, some h => .ok ⟨toInt w, toInt h⟩
    | _, _ => .error .indexOutOfRange

/-- The page behind the pointer `videoPage`. -/
def videoPageDeref (st : SettingDialog) : Except Fault Page :=
  match st.videoPage with
  | some page => .ok page
  | none => .error .nullDereference

/-- The handler connected to `videoFormatBox` (lines 166-172). -/
def videoFormatBoxIndexChanged (fuel : Nat) (st : SettingDialog) : Except Fault SettingDialog :=
  match st.videoPage with
  | none => .error .nullDereference
  | some page =>
    match comboBoxAt page (findChild .QComboBox (qs "videoFormatBox") page) with
    | .error e => .error e
    | .ok videoFormatBox =>
      match st.setFpsRange fuel (variantValue (boxValue videoFormatBox)) with
      | .error e => .error e
      | .ok st1 =>
        match parseResolution videoFormatBox.currentText with
        | .error e => .error e
        | .ok size => .ok { st1 with m_currentResolution := size }

/-- The part of `createVideoPage` inside the guard (lines 158-180). -/
def createVideoPageWithCamera (fuel : Nat) (sizeLt : QSize → QSize → Bool)
    (keyLt : VideoFormatKey → VideoFormatKey → Bool) (st : SettingDialog)
    (videoFormats : List QCameraFormat) : Except Fault SettingDialog :=
  match populateResolutionBox sizeLt keyLt st videoFormats with
  | .error e => .error e
  | .ok st1 =>
    let st2 := { st1 with connections := st1.connections ++
      [ Connection.videoFormatBox_currentIndexChanged_lambda,
        Connection.fpsSlider_valueChanged_fpsSpinBox_setValue,
        Connection.fpsSpinBox_valueChanged_fpsSlider_setValue ] }
    match st2.videoPageDeref with
    | .error e => .error e
    | .ok page =>
      match comboBoxAt page (findChild .QComboBox (qs "videoFormatBox") page) with
      | .error e => .error e
      | .ok videoFormatBox =>
        let fpsValues := variantValue (boxValue videoFormatBox)
        match st2.setFpsRange fuel fpsValues with
        | .error e => .error e
        | .ok st3 =>
          match parseResolution videoFormatBox.currentText with
          | .error e => .error e
          | .ok size => .ok { st3 with m_currentResolution := size }

/-- `createVideoPage` (lines 124-185). -/
def createVideoPage (fuel : Nat) (sizeLt : QSize → QSize → Bool)
    (keyLt : VideoFormatKey → VideoFormatKey → Bool) (st : SettingDialog) :
    Except Fault SettingDialog :=
  let st := { st with videoPage := some (videoPageOf {} {} {} {}) }
  match st.camera with
  | none => .ok { st with warnings := st.warnings ++ [qs "Camera or CameraDevice is not valid."] }
  | some camera =>
    if ¬ camera.cameraDevice.isNull then
      createVideoPageWithCamera fuel sizeLt keyLt st camera.cameraDevice.videoFormats
    else
      .ok { st with warnings := st.warnings ++ [qs "Camera or CameraDevice is not valid."] }

/-- `createAudioPage` (lines 301-334). -/
def createAudioPage (st : SettingDialog) : SettingDialog :=
  { st with audioPage := some audioPageNew }

/-- `createPages` (lines 336-346). -/
def createPages (fuel : Nat) (sizeLt : QSize → QSize → Bool)
    (keyLt : VideoFormatKey → VideoFormatKey → Bool) (st : SettingDialog) :
    Except Fault SettingDialog :=
  do
    let st := st.createLogPage
    let st ← st.createVideoPage fuel sizeLt keyLt
    let st := st.createAudioPage
    let st := { st with stackedWidget := st.stackedWidget.addWidget .logPage }
    let st := { st with stackedWidget := st.stackedWidget.addWidget .videoPage }
    let st := { st with stackedWidget := st.stackedWidget.addWidget .audioPage }
    pure st

/-- `createButtons` (lines 349-367), as far as the state records it. -/
def createButtons (st : SettingDialog) : SettingDialog :=
  { st with connections := st.connections ++
      [ .okButton_clicked_handleOkButton,
        .cancelButton_clicked_reject,
        .applyButton_clicked_applyAccrodingPage ] }

/-- The constructor (lines 49-70). -/
def construct (fuel : Nat) (sizeLt : QSize → QSize → Bool)
    (keyLt : VideoFormatKey → VideoFormatKey → Bool) (camera : Option QCamera) :
    Except Fault SettingDialog :=
  do
    let st : SettingDialog := { camera := camera }
    let st := st.createSettingTree
    let st ← st.createPages fuel sizeLt keyLt
    let st := st.createButtons
    pure { st with connections := st.connections ++ [.settingTree_currentItemChanged_changePage] }

/-- `changePage` (lines 382-403). A page switch is not made at once: the call of
`setCurrentIndex` is queued. -/
def changePage (st : SettingDialog) (current previous : Option QTreeWidgetItem) :
    Except Fault SettingDialog :=
  let current := if current.isNone then previous else current
  match current with
  | none => .error .nullDereference
  | some item =>
    let itemText := item.text
    if itemText = qs "Log" then
      .ok { st with queuedSetCurrentIndex := st.queuedSetCurrentIndex ++ [0] }
    else if itemText = qs "Video" then
      .ok { st with queuedSetCurrentIndex := st.queuedSetCurrentIndex ++ [1] }
    else if itemText = qs "Audio" then
      .ok { st with queuedSetCurrentIndex := st.queuedSetCurrentIndex ++ [2] }
    else .ok st

/-- The page a member refers to. -/
def page (st : SettingDialog) : PageId → Option Page
  | .logPage => st.logPage
  | .videoPage => st.videoPage
  | .audioPage => st.audioPage

/-- The widgets `findChild` reaches from the dialog: the children of the pages in the stacked
widget, in the order of the pages. The form built by `ui->setupUi` (`ui_settingdialog.h`) is not
among the sources and contributes no widget here. -/
def descendants (st : SettingDialog) : Page :=
  (st.stackedWidget.widgets.map (fun id => (st.page id).getD [])).foldr (· ++ ·) []

/-- The filter string `readCheckBoxState` builds (lines 424-448). -/
def logFilter (coreChecked uiChecked hostChecked serialChecked : Bool) : QString :=
  let logFilter : QString := qs ""
  let logFilter := logFilter ++
    (if coreChecked then qs "opf.core.*=true\n" else qs "opf.core.*=false\n")
  let logFilter := logFilter ++
    (if uiChecked then qs "opf.ui.*=true\n" else qs "opf.ui.*=false\n")
  let logFilter := logFilter ++
    (if hostChecked then qs "opf.host.*=true\n" else qs "opf.host.*=false\n")
  let logFilter := logFilter ++
    (if serialChecked then qs "opf.core.serial=true\n" else qs "opf.core.serial=false\n")
  logFilter

/-- `readCheckBoxState` (lines 417-451). -/
def readCheckBoxState (st : SettingDialog) : SettingDialog :=
  let all := st.descendants
  let coreCheckBox := findChild .QCheckBox (qs "core") all
  let serialCheckBox := findChild .QCheckBox (qs "serial") all
  let uiCheckBox := findChild .QCheckBox (qs "ui") all
  let hostCheckBox := findChild .QCheckBox (qs "host") all
  let rules := logFilter (checkedAt all coreCheckBox) (checkedAt all uiCheckBox)
    (checkedAt all hostCheckBox) (checkedAt all serialCheckBox)
  { st with filterRules := rules }

/-- `applyAccrodingPage` (lines 453-470). -/
def applyAccrodingPage (st : SettingDialog) : SettingDialog :=
  let currentPageIndex := st.stackedWidget.currentIndex
  if currentPageIndex = 0 then st.readCheckBoxState else st

/-- `handleOkButton` (lines 472-475). -/
def handleOkButton (st : SettingDialog) : SettingDialog :=
  { st.readCheckBoxState with accepted := true }

end SettingDialog

/-- Lexicographic comparison of sizes by width, then height: a comparator to run the
definitions with. -/
def sizeLexLt (a b : QSize) : Bool :=
  decide (a.width < b.width) || (decide (a.width = b.width) && decide (a.height < b.height))

/-- Lexicographic comparison of keys by width, height, frame rate and pixel format: a
comparator to run the definitions with. -/
def keyLexLt (a b : VideoFormatKey) : Bool :=
  sizeLexLt a.resolution b.resolution ||
    (decide (a.resolution = b.resolution) &&
      (decide (a.frameRate < b.frameRate) ||
        (decide (a.frameRate = b.frameRate) && decide (a.pixelFormat < b.pixelFormat))))

/-! ## Auxiliary definitions for the statements -/

/-- One filter rule, `category=true` or `category=false`, with its line end. -/
def filterLine (category : QString) (enabled : Bool) : QString :=
  category ++ qs "=" ++ (if enabled then qs "true" else qs "false") ++ qs "\n"

/-- Whether the guard of line 157 fails: the camera pointer is null or its device is null. -/
def cameraAbsent (camera : Option QCamera) : Bool :=
  match camera with
  | none => true
  | some c => c.cameraDevice.isNull

/-- A dialog constructed without a camera. -/
def dialogWithoutCamera : SettingDialog :=
  { camera := none,
    settingTree := [⟨qs "Log"⟩, ⟨qs "Video"⟩, ⟨qs "Audio"⟩],
    stackedWidget := ⟨[.logPage, .videoPage, .audioPage], 0⟩,
    logPage := some (logPageOf false false false false),
    videoPage := some (videoPageOf {} {} {} {}),
    audioPage := some audioPageNew,
    connections :=
      [ Connection.okButton_clicked_handleOkButton,
        Connection.cancelButton_clicked_reject,
        Connection.applyButton_clicked_applyAccrodingPage,
        Connection.settingTree_currentItemChanged_changePage ],
    warnings := [qs "Camera or CameraDevice is not valid."] }

/-- A dialog whose resolution box holds one item with the frame rates 30 and 60, range and valid
values set accordingly, and whose slider has been moved to 45. -/
def dialogSliderAt45 : SettingDialog :=
  { camera := none,
    videoPage := some (videoPageOf
      { items := [(qs "1920x1080 [30 - 60 Hz]", some [30, 60])], currentIndex := 0 }
      { minimum := 30, maximum := 60, value := 45, validValues := [30, 60] }
      { minimum := 30, maximum := 60, value := 45 }
      {}) }

/-- The `float` nearest to 29.97, the frame rate of NTSC video: 15712911 / 2^19. -/
def ntscRate : ℚ := ⟨15712911, 524288, by decide, by decide⟩

/-- The tree and the stacked widget of `b` are those of `a`. -/
def SameTreeAndStack (a b : SettingDialog) : Prop :=
  b.settingTree = a.settingTree ∧ b.stackedWidget = a.stackedWidget

/-- The dialog `st` with a video page made of the given widgets. -/
def withVideoPage (st : SettingDialog) (box : QComboBox) (spin : FpsSpinBox) (slider : QSlider)
    (pixel : QComboBox) : SettingDialog :=
  { st with videoPage := some (videoPageOf box spin slider pixel) }

/-- The connections `createVideoPage` has made when it calls `setFpsRange` (lines 166-174). -/
def createVideoPageConnections : List Connection :=
  [ Connection.videoFormatBox_currentIndexChanged_lambda,
    Connection.fpsSlider_valueChanged_fpsSpinBox_setValue,
    Connection.fpsSpinBox_valueChanged_fpsSlider_setValue ]

/-- A camera whose device reports 1280x720 at 30 and 60 and 1920x1080 at 25, 50 and 90 frames
per second. -/
def cameraTwoResolutions : QCamera :=
  ⟨⟨false, [⟨some ⟨⟨1280, 720⟩, 30, 30, 1⟩⟩, ⟨some ⟨⟨1280, 720⟩, 60, 60, 1⟩⟩,
    ⟨some ⟨⟨1920, 1080⟩, 25, 25, 1⟩⟩, ⟨some ⟨⟨1920, 1080⟩, 50, 50, 1⟩⟩,
    ⟨some ⟨⟨1920, 1080⟩, 90, 90, 1⟩⟩]⟩⟩

/-- The user picks the item `index` of the resolution box: the box makes it current; the handler
connected to `currentIndexChanged` runs next. -/
def pickResolution (st : SettingDialog) (index : Int) : Except Fault SettingDialog :=
  match st.videoPage with
  | none => .error .nullDereference
  | some page =>
    match callComboBox page (findChild .QComboBox (qs "videoFormatBox") page)
        (fun b => { b with currentIndex := index }) with
    | .error e => .error e
    | .ok page1 => .ok { st with videoPage := some page1 }

/-- Whether a character is a decimal digit. -/
def isDigit (c : Char) : Bool := (digitValue c).isSome

/-! # Properties -/

/-! ### Facts about the iterator positions -/

theorem deref_cons_succ (x : Int) (xs : IntSet) (i : Nat) :
    deref (x :: xs) (i + 1) = deref xs i := by
  simp [deref]

theorem deref_cons_zero (x : Int) (xs : IntSet) : deref (x :: xs) 0 = x := by
  simp [deref]

theorem isSet_cons {x : Int} {xs : IntSet} (h : IsSet (x :: xs)) :
    (∀ y ∈ xs, x < y) ∧ IsSet xs := by
  simpa [IsSet] using h

/-- When `lower_bound` is not `end`, it points at the least member that is not below `v`. -/
theorem lowerBound_spec (s : IntSet) (v : Int) (hs : IsSet s)
    (h : lowerBound s v ≠ s.length) :
    deref s (lowerBound s v) ∈ s ∧ v ≤ deref s (lowerBound s v) ∧
      ∀ y ∈ s, v ≤ y → deref s (lowerBound s v) ≤ y := by
  induction s with
  | nil => simp [lowerBound] at h
  | cons x xs ih =>
    obtain ⟨hx, hxs⟩ := isSet_cons hs
    by_cases hxv : x < v
    · have hlb : lowerBound (x :: xs) v = lowerBound xs v + 1 := by simp [lowerBound, hxv]
      have h' : lowerBound xs v ≠ xs.length := by
        intro hc; apply h; rw [hlb, hc]; simp
      obtain ⟨h1, h2, h3⟩ := ih hxs h'
      rw [hlb, deref_cons_succ]
      refine ⟨List.mem_cons_of_mem _ h1, h2, ?_⟩
      intro y hy hvy
      rcases List.mem_cons.1 hy with rfl | hy
      · omega
      · exact h3 y hy hvy
    · have hlb : lowerBound (x :: xs) v = 0 := by simp [lowerBound, hxv]
      rw [hlb, deref_cons_zero]
      refine ⟨List.mem_cons_self _ _, by omega, ?_⟩
      intro y hy _
      rcases List.mem_cons.1 hy with rfl | hy
      · exact le_refl _
      · exact le_of_lt (hx y hy)

/-- When `lower_bound` is `end`, every member is below `v`. -/
theorem lowerBound_end (s : IntSet) (v : Int) (h : lowerBound s v = s.length) :
    ∀ y ∈ s, y < v := by
  induction s with
  | nil => simp
  | cons x xs ih =>
    by_cases hxv : x < v
    · have hlb : lowerBound (x :: xs) v = lowerBound xs v + 1 := by simp [lowerBound, hxv]
      have h' : lowerBound xs v = xs.length := by
        rw [hlb] at h; simpa using h
      intro y hy
      rcases List.mem_cons.1 hy with rfl | hy
      · exact hxv
      · exact ih h' y hy
    · have hlb : lowerBound (x :: xs) v = 0 := by simp [lowerBound, hxv]
      rw [hlb] at h; simp at h

/-- When `upper_bound` is `begin`, every member is above `v`. -/
theorem upperBound_begin (s : IntSet) (v : Int) (hs : IsSet s) (h : upperBound s v = 0) :
    ∀ y ∈ s, v < y := by
  cases s with
  | nil => simp
  | cons x xs =>
    obtain ⟨hx, _⟩ := isSet_cons hs
    by_cases hvx : v < x
    · intro y hy
      rcases List.mem_cons.1 hy with rfl | hy
      · exact hvx
      · exact lt_trans hvx (hx y hy)
    · simp [upperBound, hvx] at h

/-- When `upper_bound` is not `begin`, the element before it is the greatest member that is
not above `v`. -/
theorem upperBound_spec (s : IntSet) (v : Int) (hs : IsSet s) (h : upperBound s v ≠ 0) :
    deref s (upperBound s v - 1) ∈ s ∧ deref s (upperBound s v - 1) ≤ v ∧
      ∀ y ∈ s, y ≤ v → y ≤ deref s (upperBound s v - 1) := by
  induction s with
  | nil => simp [upperBound] at h
  | cons x xs ih =>
    obtain ⟨hx, hxs⟩ := isSet_cons hs
    by_cases hvx : v < x
    · simp [upperBound, hvx] at h
    · have hub : upperBound (x :: xs) v = upperBound xs v + 1 := by simp [upperBound, hvx]
      rw [hub, Nat.add_sub_cancel]
      by_cases h0 : upperBound xs v = 0
      · rw [h0, deref_cons_zero]
        refine ⟨List.mem_cons_self _ _, by omega, ?_⟩
        intro y hy hyv
        rcases List.mem_cons.1 hy with rfl | hy
        · exact le_refl _
        · have := upperBound_begin xs v hxs h0 y hy
          omega
      · obtain ⟨h1, h2, h3⟩ := ih hxs h0
        obtain ⟨k, hk⟩ := Nat.exists_eq_succ_of_ne_zero h0
        rw [hk] at h1 h2 h3
        simp only [Nat.succ_eq_add_one, Nat.add_sub_cancel] at h1 h2 h3
        rw [hk, Nat.succ_eq_add_one, deref_cons_succ]
        refine ⟨List.mem_cons_of_mem _ h1, h2, ?_⟩
        intro y hy hyv
        rcases List.mem_cons.1 hy with rfl | hy
        · exact le_of_lt (hx _ h1)
        · exact h3 y hy hyv

/-- On a set, `find` returns `end` exactly for non-members. -/
theorem setFind_eq_end_iff (s : IntSet) (v : Int) (hs : IsSet s) :
    setFind s v = s.length ↔ v ∉ s := by
  unfold setFind
  by_cases hlb : lowerBound s v = s.length
  · have := lowerBound_end s v hlb
    simp only [hlb, ne_eq, not_true_eq_false, false_and, if_false, true_iff]
    intro hv
    exact lt_irrefl _ (this v hv)
  · obtain ⟨h1, h2, h3⟩ := lowerBound_spec s v hs hlb
    have hd : s.getD (lowerBound s v) 0 = deref s (lowerBound s v) := rfl
    simp only [hd]
    by_cases hv : v ∈ s
    · have := h3 v hv (le_refl _)
      have hnot : ¬ v < deref s (lowerBound s v) := by omega
      simp [hlb, hnot, hv]
    · have hne : deref s (lowerBound s v) ≠ v := fun hc => hv (hc ▸ h1)
      have hlt : v < deref s (lowerBound s v) := by omega
      simp [hlb, hlt, hv]

theorem wrapInt32_of_range (x : Int) (h1 : -2147483648 ≤ x) (h2 : x < 2147483648) :
    wrapInt32 x = x := by
  unfold wrapInt32; omega


/-! ### The snapping computation -/

theorem sub32_of_range (a b : Int) (h1 : 0 ≤ a - b) (h2 : a - b < 2147483648) :
    sub32 a b = a - b := by
  unfold sub32; exact wrapInt32_of_range _ (by omega) h2

/-- For a value outside the set with members on both sides, the two iterators of the routine
point at the least member above and, after the decrement, at the greatest member below. -/
theorem nearestValue_between (S : IntSet) (v a b : Int) (hS : IsSet S) (hv : v ∉ S)
    (ha : a ∈ S) (hav : a < v) (hgreatest : ∀ x ∈ S, x < v → x ≤ a)
    (hb : b ∈ S) (hvb : v < b) (hleast : ∀ x ∈ S, v < x → b ≤ x) :
    nearestValue S v = if sub32 v a ≤ sub32 b v then a else b := by
  have hlb : lowerBound S v ≠ S.length := by
    intro hc
    have := lowerBound_end S v hc b hb
    omega
  have hub : upperBound S v ≠ 0 := by
    intro hc
    have := upperBound_begin S v hS hc a ha
    omega
  obtain ⟨l1, l2, l3⟩ := lowerBound_spec S v hS hlb
  obtain ⟨u1, u2, u3⟩ := upperBound_spec S v hS hub
  have hL : deref S (lowerBound S v) = b := by
    have h1 := l3 b hb (le_of_lt hvb)
    have hne : deref S (lowerBound S v) ≠ v := fun hc => hv (hc ▸ l1)
    have h2 := hleast _ l1 (by omega)
    omega
  have hU : deref S (upperBound S v - 1) = a := by
    have h1 := u3 a ha (le_of_lt hav)
    have hne : deref S (upperBound S v - 1) ≠ v := fun hc => hv (hc ▸ u1)
    have h2 := hgreatest _ u1 (by omega)
    omega
  unfold nearestValue
  simp only [hlb, hub, ne_eq, not_false_eq_true, and_self, if_true, hL, hU]

/-- The selected value is a member of a non-empty set. -/
theorem selectedValue_mem (S : IntSet) (v : Int) (hS : IsSet S) (hne : S ≠ []) :
    selectedValue S v ∈ S := by
  unfold selectedValue
  by_cases hf : setFind S v = S.length
  · rw [if_pos hf]
    unfold nearestValue
    by_cases hlb : lowerBound S v = S.length
    · by_cases hub : upperBound S v = 0
      · exfalso
        cases S with
        | nil => exact hne rfl
        | cons x xs =>
          have h1 := lowerBound_end _ v hlb x (List.mem_cons_self _ _)
          have h2 := upperBound_begin _ v hS hub x (List.mem_cons_self _ _)
          omega
      · simp only [hlb, hub, ne_eq, not_true_eq_false, false_and, if_false, not_false_eq_true,
          if_true]
        exact (upperBound_spec S v hS hub).1
    · by_cases hub : upperBound S v = 0
      · simp only [hlb, hub, ne_eq, not_true_eq_false, and_false, if_false, not_false_eq_true,
          if_true]
        exact (lowerBound_spec S v hS hlb).1
      · simp only [hlb, hub, ne_eq, not_false_eq_true, and_self, if_true]
        split
        · exact (upperBound_spec S v hS hub).1
        · exact (lowerBound_spec S v hS hlb).1
  · rw [if_neg hf]
    by_contra hc
    exact hf ((setFind_eq_end_iff S v hS).2 hc)

/-- When no difference of two members reaches `2^31`, no member is nearer than the selected
value. -/
theorem selectedValue_nearest (S : IntSet) (v : Int) (hS : IsSet S)
    (hspan : ∀ x ∈ S, ∀ y ∈ S, y - x < 2147483648) :
    ∀ x ∈ S, |v - selectedValue S v| ≤ |v - x| := by
  intro x hx
  unfold selectedValue
  by_cases hf : setFind S v = S.length
  · rw [if_pos hf]
    have hv : v ∉ S := (setFind_eq_end_iff S v hS).1 hf
    have hxv : x ≠ v := fun hc => hv (hc ▸ hx)
    unfold nearestValue
    by_cases hlb : lowerBound S v = S.length
    · by_cases hub : upperBound S v = 0
      · have h1 := lowerBound_end _ v hlb x hx
        have h2 := upperBound_begin _ v hS hub x hx
        omega
      · simp only [hlb, hub, ne_eq, not_true_eq_false, false_and, if_false, not_false_eq_true,
          if_true]
        obtain ⟨_, u2, u3⟩ := upperBound_spec S v hS hub
        have h1 := lowerBound_end _ v hlb x hx
        have h2 := u3 x hx (le_of_lt h1)
        rw [abs_of_nonneg (by omega), abs_of_nonneg (by omega)]
        omega
    · by_cases hub : upperBound S v = 0
      · simp only [hlb, hub, ne_eq, not_true_eq_false, and_false, if_false, not_false_eq_true,
          if_true]
        obtain ⟨_, l2, l3⟩ := lowerBound_spec S v hS hlb
        have h1 := upperBound_begin _ v hS hub x hx
        have h2 := l3 x hx (le_of_lt h1)
        rw [abs_of_nonpos (by omega), abs_of_nonpos (by omega)]
        omega
      · simp only [hlb, hub, ne_eq, not_false_eq_true, and_self, if_true]
        obtain ⟨l1, l2, l3⟩ := lowerBound_spec S v hS hlb
        obtain ⟨u1, u2, u3⟩ := upperBound_spec S v hS hub
        have hLne : deref S (lowerBound S v) ≠ v := fun hc => hv (hc ▸ l1)
        have hUne : deref S (upperBound S v - 1) ≠ v := fun hc => hv (hc ▸ u1)
        have hsp := hspan _ u1 _ l1
        rw [sub32_of_range _ _ (by omega) (by omega), sub32_of_range _ _ (by omega) (by omega)]
        rcases lt_or_gt_of_ne hxv with hlt | hgt
        · have h2 := u3 x hx (le_of_lt hlt)
          split
          · rw [abs_of_nonneg (by omega), abs_of_nonneg (by omega)]; omega
          · rw [abs_of_nonpos (by omega), abs_of_nonneg (by omega)]; omega
        · have h2 := l3 x hx (le_of_lt hgt)
          split
          · rw [abs_of_nonneg (by omega), abs_of_nonpos (by omega)]; omega
          · rw [abs_of_nonpos (by omega), abs_of_nonpos (by omega)]; omega
  · rw [if_neg hf]
    simp

/-- C1: for every non-empty set `S` of valid frame rates (non-negative `int`s) and every integer
`v`, the value `onFpsSliderValueChanged` selects for the slider (`v` itself when `v` is in `S`,
otherwise the computed `nearestValue`) is a member of `S`, and no member of `S` has a strictly
smaller absolute difference to `v` than the selected value has. -/
theorem C1_selected_member_and_nearest (S : IntSet) (v : Int) (hS : IsSet S) (hne : S ≠ [])
    (hvalid : ∀ x ∈ S, 0 ≤ x ∧ x < 2147483648) :
    selectedValue S v ∈ S ∧ ∀ x ∈ S, ¬ (|v - x| < |v - selectedValue S v|) := by
  refine ⟨selectedValue_mem S v hS hne, ?_⟩
  intro x hx
  have hspan : ∀ x ∈ S, ∀ y ∈ S, y - x < 2147483648 := by
    intro x hx y hy
    have h1 := hvalid x hx
    have h2 := hvalid y hy
    omega
  have := selectedValue_nearest S v hS hspan x hx
  omega

/-- C1, witness: the set `30, 60` and the value `46`. -/
theorem C1_selected_member_and_nearest_witness :
    selectedValue [30, 60] 46 ∈ ([30, 60] : IntSet) ∧
      ∀ x ∈ ([30, 60] : IntSet), ¬ (|46 - x| < |46 - selectedValue [30, 60] 46|) :=
  C1_selected_member_and_nearest [30, 60] 46 (by decide) (by decide) (by decide)

/-- C9: for every set `S` of valid frame rates (non-negative `int`s) and every value `v` not in
`S` such that `S` has a greatest member `a` below `v` and a least member `b` above `v`: when
`v - a = b - v`, `onFpsSliderValueChanged` computes `nearestValue = a`, the lower of the two
equidistant members; more generally it picks `a` whenever `v - a <= b - v` and `b` otherwise. -/
theorem C9_tie_break (S : IntSet) (v a b : Int) (hS : IsSet S)
    (hvalid : ∀ x ∈ S, 0 ≤ x ∧ x < 2147483648) (hv : v ∉ S)
    (ha : a ∈ S) (hav : a < v) (hgreatest : ∀ x ∈ S, x < v → x ≤ a)
    (hb : b ∈ S) (hvb : v < b) (hleast : ∀ x ∈ S, v < x → b ≤ x) :
    (v - a = b - v → nearestValue S v = a) ∧
      nearestValue S v = (if v - a ≤ b - v then a else b) := by
  have h := nearestValue_between S v a b hS hv ha hav hgreatest hb hvb hleast
  have h1 := hvalid a ha
  have h2 := hvalid b hb
  have key : nearestValue S v = if v - a ≤ b - v then a else b := by
    rw [h, sub32_of_range _ _ (by omega) (by omega), sub32_of_range _ _ (by omega) (by omega)]
  refine ⟨?_, key⟩
  intro heq
  rw [key, if_pos (le_of_eq heq)]

/-- C9, witness: the set `30, 60` and the value `45`, midway between its members. -/
theorem C9_tie_break_witness :
    ((45 : Int) - 30 = 60 - 45 → nearestValue [30, 60] 45 = 30) ∧
      nearestValue [30, 60] 45 = (if (45 : Int) - 30 ≤ 60 - 45 then 30 else 60) :=
  C9_tie_break [30, 60] 45 30 60 (by decide) (by decide) (by decide) (by decide) (by decide)
    (by decide) (by decide) (by decide) (by decide)

/-! ### The two maps -/

theorem StrictTotal.asymm {K : Type} {lt : K → K → Bool} (h : StrictTotal lt) (a b : K)
    (hab : lt a b = true) : lt b a = false := by
  cases hba : lt b a with
  | false => rfl
  | true =>
    have := h.trans a b a hab hba
    rw [h.irrefl a] at this
    exact absurd this (by decide)

theorem StrictTotal.eq_of_not_lt {K : Type} {lt : K → K → Bool} (h : StrictTotal lt) (a b : K)
    (hab : lt a b = false) (hba : lt b a = false) : a = b := by
  by_contra hne
  rcases h.total a b hne with h1 | h1
  · rw [hab] at h1; exact absurd h1 (by decide)
  · rw [hba] at h1; exact absurd h1 (by decide)

/-- Lookup after `m[k1] ...`: the entry of `k1` holds the updated value, every other key is
looked up as before. -/
theorem mapFind_mapIndex {K V : Type} [DecidableEq K] {lt : K → K → Bool} (h : StrictTotal lt)
    (k k1 : K) (dflt : V) (f : V → V) (m : StdMap K V) :
    mapFind lt k (mapIndex lt k1 dflt f m) =
      if k = k1 then some (f ((mapFind lt k1 m).getD dflt)) else mapFind lt k m := by
  induction m with
  | nil =>
    by_cases hk : k = k1
    · subst hk
      simp [mapIndex, mapFind, h.irrefl]
    · rw [if_neg hk]
      rcases h.total k k1 hk with h1 | h1
      · simp [mapIndex, mapFind, h1, h.asymm _ _ h1]
      · simp [mapIndex, mapFind, h1]
  | cons e rest ih =>
    obtain ⟨k2, v2⟩ := e
    cases h21 : lt k2 k1 with
    | true =>
      have hne : k2 ≠ k1 := by
        intro hc; rw [hc, h.irrefl] at h21; exact absurd h21 (by decide)
      simp only [mapIndex, h21, if_true]
      cases h2k : lt k2 k with
      | true =>
        simp only [mapFind, h2k, if_true, h21]
        exact ih
      | false =>
        have hkne : k ≠ k1 := by
          intro hc; rw [hc, h21] at h2k; exact absurd h2k (by decide)
        simp [mapFind, h2k, hkne]
    | false =>
      cases h12 : lt k1 k2 with
      | true =>
        simp only [mapIndex, h21, h12, if_true, Bool.false_eq_true, if_false]
        by_cases hk : k = k1
        · subst hk
          simp [mapFind, h.irrefl, h21, h12]
        · rw [if_neg hk]
          rcases h.total k k1 hk with h1 | h1
          · have hk2 : lt k k2 = true := h.trans _ _ _ h1 h12
            simp [mapFind, h1, h.asymm _ _ h1, hk2, h.asymm _ _ hk2]
          · simp [mapFind, h1]
      | false =>
        have heq : k1 = k2 := h.eq_of_not_lt _ _ h12 h21
        subst heq
        simp only [mapIndex, h21, Bool.false_eq_true, if_false]
        by_cases hk : k = k1
        · subst hk
          simp [mapFind, h.irrefl]
        · rw [if_neg hk]
          rcases h.total k k1 hk with h1 | h1
          · simp [mapFind, h1, h.asymm _ _ h1]
          · simp [mapFind, h1]

/-- The map invariant is kept by `m[k] ...`. -/
theorem isMap_mapIndex {K V : Type} {lt : K → K → Bool} (h : StrictTotal lt)
    (k : K) (dflt : V) (f : V → V) (m : StdMap K V) (hm : IsMap lt m) :
    IsMap lt (mapIndex lt k dflt f m) ∧
      ∀ e ∈ mapIndex lt k dflt f m, e.1 = k ∨ ∃ e1 ∈ m, e1.1 = e.1 := by
  induction m with
  | nil => simp [mapIndex, IsMap]
  | cons e rest ih =>
    obtain ⟨k2, v2⟩ := e
    have hm1 : (∀ e1 ∈ rest, lt k2 e1.1 = true) ∧ IsMap lt rest := by
      simpa [IsMap] using hm
    obtain ⟨ih1, ih2⟩ := ih hm1.2
    cases h21 : lt k2 k with
    | true =>
      simp only [mapIndex, h21, if_true]
      constructor
      · unfold IsMap
        rw [List.pairwise_cons]
        refine ⟨?_, ih1⟩
        intro e1 he1
        rcases ih2 e1 he1 with hk | ⟨e2, he2, hk⟩
        · show lt k2 e1.1 = true
          rw [hk]; exact h21
        · show lt k2 e1.1 = true
          rw [← hk]; exact hm1.1 e2 he2
      · intro e1 he1
        rcases List.mem_cons.1 he1 with rfl | he1
        · exact Or.inr ⟨(k2, v2), List.mem_cons_self _ _, rfl⟩
        · rcases ih2 e1 he1 with hk | ⟨e2, he2, hk⟩
          · exact Or.inl hk
          · exact Or.inr ⟨e2, List.mem_cons_of_mem _ he2, hk⟩
    | false =>
      cases h12 : lt k k2 with
      | true =>
        simp only [mapIndex, h21, h12, if_true, Bool.false_eq_true, if_false]
        constructor
        · unfold IsMap
          rw [List.pairwise_cons]
          refine ⟨?_, hm⟩
          intro e1 he1
          rcases List.mem_cons.1 he1 with rfl | he1
          · exact h12
          · exact h.trans _ _ _ h12 (hm1.1 e1 he1)
        · intro e1 he1
          rcases List.mem_cons.1 he1 with rfl | he1
          · exact Or.inl rfl
          · exact Or.inr ⟨e1, he1, rfl⟩
      | false =>
        simp only [mapIndex, h21, h12, Bool.false_eq_true, if_false]
        constructor
        · unfold IsMap
          rw [List.pairwise_cons]
          exact ⟨hm1.1, hm1.2⟩
        · intro e1 he1
          rcases List.mem_cons.1 he1 with rfl | he1
          · exact Or.inr ⟨(k2, v2), List.mem_cons_self _ _, rfl⟩
          · exact Or.inr ⟨e1, List.mem_cons_of_mem _ he1, rfl⟩

/-- In a map, looking a key up finds the value of its entry, and only that. -/
theorem mapFind_eq_some_iff_mem {K V : Type} {lt : K → K → Bool} (h : StrictTotal lt)
    (k : K) (v : V) (m : StdMap K V) (hm : IsMap lt m) :
    mapFind lt k m = some v ↔ (k, v) ∈ m := by
  induction m with
  | nil => simp [mapFind]
  | cons e rest ih =>
    obtain ⟨k2, v2⟩ := e
    have hm1 : (∀ e1 ∈ rest, lt k2 e1.1 = true) ∧ IsMap lt rest := by
      simpa [IsMap] using hm
    cases h2k : lt k2 k with
    | true =>
      have hne : k ≠ k2 := by
        intro hc; rw [hc, h.irrefl] at h2k; exact absurd h2k (by decide)
      simp only [mapFind, h2k, if_true, List.mem_cons, Prod.mk.injEq, hne, false_and, false_or]
      exact ih hm1.2
    | false =>
      have hnot : (k, v) ∉ rest := by
        intro hc
        have h1 := hm1.1 _ hc
        rw [h1] at h2k
        exact absurd h2k (by decide)
      cases hk2 : lt k k2 with
      | true =>
        have hne : k ≠ k2 := by
          intro hc; rw [hc, h.irrefl] at hk2; exact absurd hk2 (by decide)
        simp [mapFind, h2k, hk2, hne, hnot]
      | false =>
        have heq : k = k2 := h.eq_of_not_lt _ _ hk2 h2k
        subst heq
        simp only [mapFind, h2k, Bool.false_eq_true, if_false, Option.some.injEq,
          List.mem_cons, Prod.mk.injEq, true_and, hnot, or_false]
        exact eq_comm

theorem mem_setInsert (x y : Int) (s : IntSet) : y ∈ setInsert x s ↔ y = x ∨ y ∈ s := by
  induction s with
  | nil => simp [setInsert]
  | cons z zs ih =>
    unfold setInsert
    by_cases h1 : x < z
    · simp [h1]
    · by_cases h2 : z < x
      · simp only [h1, h2, if_false, if_true, List.mem_cons, ih]
        tauto
      · have : x = z := by omega
        subst this
        simp [h1]

theorem isSet_setInsert (x : Int) (s : IntSet) (hs : IsSet s) : IsSet (setInsert x s) := by
  induction s with
  | nil => simp [setInsert, IsSet]
  | cons z zs ih =>
    obtain ⟨hz, hzs⟩ := isSet_cons hs
    unfold setInsert
    by_cases h1 : x < z
    · simp only [h1, if_true]
      unfold IsSet
      rw [List.pairwise_cons]
      refine ⟨?_, hs⟩
      intro y hy
      rcases List.mem_cons.1 hy with rfl | hy
      · exact h1
      · exact lt_trans h1 (hz y hy)
    · by_cases h2 : z < x
      · simp only [h1, h2, if_false, if_true]
        unfold IsSet
        rw [List.pairwise_cons]
        refine ⟨?_, ih hzs⟩
        intro y hy
        rcases (mem_setInsert x y zs).1 hy with rfl | hy
        · exact h2
        · exact hz y hy
      · simp only [h1, h2, if_false]
        exact hs

/-- The loop treats its two maps independently of each other. -/
theorem populateLoop_eq (sizeLt : QSize → QSize → Bool)
    (keyLt : VideoFormatKey → VideoFormatKey → Bool)
    (vm : StdMap VideoFormatKey QCameraFormat) (rs : StdMap QSize IntSet)
    (videoFormats : List QCameraFormat) :
    videoFormats.foldl
      (fun acc format => (stepFormatMap keyLt acc.1 format, stepSampleRates sizeLt acc.2 format))
      (vm, rs) =
    (videoFormats.foldl (stepFormatMap keyLt) vm, videoFormats.foldl (stepSampleRates sizeLt) rs) := by
  induction videoFormats generalizing vm rs with
  | nil => rfl
  | cons f fs ih => simp only [List.foldl_cons]; exact ih _ _


/-- What the sample-rate map holds after the loop has run over a list of formats. -/
theorem sampleRates_fold (sizeLt : QSize → QSize → Bool) (h : StrictTotal sizeLt)
    (fs : List QCameraFormat) (r : QSize) :
    match mapFind sizeLt r (fs.foldl (stepSampleRates sizeLt) []) with
    | none => ∀ f ∈ fs, f.resolution ≠ r
    | some s => IsSet s ∧ (∃ f ∈ fs, f.resolution = r) ∧
        ∀ x, x ∈ s ↔ ∃ f ∈ fs, f.resolution = r ∧ floatToInt f.minFrameRate = x := by
  induction fs using List.reverseRecOn with
  | nil => simp [mapFind]
  | append_singleton fs f ih =>
    rw [List.foldl_append, List.foldl_cons, List.foldl_nil]
    generalize fs.foldl (stepSampleRates sizeLt) [] = m at ih ⊢
    have hstep : stepSampleRates sizeLt m f =
        mapIndex sizeLt f.resolution [] (setInsert (floatToInt f.minFrameRate)) m := rfl
    rw [hstep, mapFind_mapIndex h]
    by_cases hr : r = f.resolution
    · subst hr
      rw [if_pos rfl]
      cases hfind : mapFind sizeLt f.resolution m with
      | none =>
        rw [hfind] at ih
        simp only at ih
        simp only [Option.getD_none]
        refine ⟨by simp [setInsert, IsSet], ⟨f, by simp, rfl⟩, ?_⟩
        intro x
        simp only [setInsert, List.mem_singleton, List.mem_append]
        constructor
        · intro hx; exact ⟨f, Or.inr rfl, rfl, hx.symm⟩
        · rintro ⟨g, hg | hg, hg1, hg2⟩
          · exact absurd hg1 (ih g hg)
          · rw [← hg2, hg]
      | some s =>
        rw [hfind] at ih
        simp only at ih
        obtain ⟨ih1, _, ih3⟩ := ih
        simp only [Option.getD_some]
        refine ⟨isSet_setInsert _ _ ih1, ⟨f, by simp, rfl⟩, ?_⟩
        intro x
        rw [mem_setInsert, ih3]
        simp only [List.mem_append, List.mem_singleton]
        constructor
        · rintro (hx | ⟨g, hg, hg1, hg2⟩)
          · exact ⟨f, Or.inr rfl, rfl, hx.symm⟩
          · exact ⟨g, Or.inl hg, hg1, hg2⟩
        · rintro ⟨g, hg | hg, hg1, hg2⟩
          · exact Or.inr ⟨g, hg, hg1, hg2⟩
          · left; rw [← hg2, hg]
    · rw [if_neg hr]
      cases hfind : mapFind sizeLt r m with
      | none =>
        rw [hfind] at ih
        simp only at ih
        show ∀ g ∈ fs ++ [f], g.resolution ≠ r
        intro g hg
        rcases List.mem_append.1 hg with hg | hg
        · exact ih g hg
        · rw [List.mem_singleton.1 hg]; exact fun hc => hr hc.symm
      | some s =>
        rw [hfind] at ih
        simp only at ih
        obtain ⟨ih1, ⟨g0, hg0, hg01⟩, ih3⟩ := ih
        show IsSet s ∧ (∃ g ∈ fs ++ [f], g.resolution = r) ∧
          ∀ x, x ∈ s ↔ ∃ g ∈ fs ++ [f], g.resolution = r ∧ floatToInt g.minFrameRate = x
        refine ⟨ih1, ⟨g0, List.mem_append_left _ hg0, hg01⟩, ?_⟩
        intro x
        rw [ih3]
        constructor
        · rintro ⟨g, hg, hg1, hg2⟩
          exact ⟨g, List.mem_append_left _ hg, hg1, hg2⟩
        · rintro ⟨g, hg, hg1, hg2⟩
          rcases List.mem_append.1 hg with hg | hg
          · exact ⟨g, hg, hg1, hg2⟩
          · rw [List.mem_singleton.1 hg] at hg1
            exact absurd hg1.symm hr

theorem sampleRates_isMap (sizeLt : QSize → QSize → Bool) (h : StrictTotal sizeLt)
    (fs : List QCameraFormat) : IsMap sizeLt (fs.foldl (stepSampleRates sizeLt) []) := by
  induction fs using List.reverseRecOn with
  | nil => simp [IsMap]
  | append_singleton fs f ih =>
    rw [List.foldl_append, List.foldl_cons, List.foldl_nil]
    exact (isMap_mapIndex h _ _ _ _ ih).1

theorem resolutionSampleRates_eq (sizeLt : QSize → QSize → Bool)
    (keyLt : VideoFormatKey → VideoFormatKey → Bool) (fs : List QCameraFormat) :
    resolutionSampleRates sizeLt keyLt fs = fs.foldl (stepSampleRates sizeLt) [] := by
  unfold resolutionSampleRates populateLoop
  rw [populateLoop_eq]

/-- The conversion of line 262 leaves a whole number as it is. -/
theorem floatToInt_intCast (n : Int) : floatToInt (n : ℚ) = n := by
  unfold floatToInt
  simp only [Rat.intCast_num, Rat.intCast_den, Nat.cast_one, Int.ediv_one, neg_neg]
  split <;> rfl

/-- C2: for every list of camera formats and a comparator of resolutions that is a strict total
order, the map `resolutionSampleRates` built by `populateResolutionBox` has its keys in strictly
ascending order, contains a resolution `r` (as the key of an entry, and for `find`) exactly
when some format of the list has the resolution `r`, and the set it maps `r` to holds exactly
the minimum frame rates, converted to `int`, of the listed formats of resolution `r`, without
duplicates and in strictly ascending order; with integer minimum frame rates these are the
minimum frame rates themselves. -/
theorem C2_grouping_by_resolution (sizeLt : QSize → QSize → Bool)
    (keyLt : VideoFormatKey → VideoFormatKey → Bool) (h : StrictTotal sizeLt)
    (videoFormats : List QCameraFormat) (r : QSize) :
    IsMap sizeLt (resolutionSampleRates sizeLt keyLt videoFormats) ∧
    ((∃ s, (r, s) ∈ resolutionSampleRates sizeLt keyLt videoFormats) ↔
      ∃ f ∈ videoFormats, f.resolution = r) ∧
    ((mapFind sizeLt r (resolutionSampleRates sizeLt keyLt videoFormats)).isSome = true ↔
      ∃ f ∈ videoFormats, f.resolution = r) ∧
    ∀ s, ((r, s) ∈ resolutionSampleRates sizeLt keyLt videoFormats ∨
        mapFind sizeLt r (resolutionSampleRates sizeLt keyLt videoFormats) = some s) →
      (∀ x, x ∈ s ↔ ∃ f ∈ videoFormats, f.resolution = r ∧ floatToInt f.minFrameRate = x) ∧
      ((∀ f ∈ videoFormats, ∃ n : Int, f.minFrameRate = (n : ℚ)) →
        ∀ x : Int, x ∈ s ↔ ∃ f ∈ videoFormats, f.resolution = r ∧ f.minFrameRate = (x : ℚ)) ∧
      s.Nodup ∧ s.Pairwise (· < ·) := by
  rw [resolutionSampleRates_eq]
  have hf := sampleRates_fold sizeLt h videoFormats r
  have hmap := sampleRates_isMap sizeLt h videoFormats
  have hmem : ∀ s, (r, s) ∈ videoFormats.foldl (stepSampleRates sizeLt) [] ↔
      mapFind sizeLt r (videoFormats.foldl (stepSampleRates sizeLt) []) = some s :=
    fun s => (mapFind_eq_some_iff_mem h r s _ hmap).symm
  have hsome : (mapFind sizeLt r (videoFormats.foldl (stepSampleRates sizeLt) [])).isSome = true ↔
      ∃ f ∈ videoFormats, f.resolution = r := by
    cases hfind : mapFind sizeLt r (videoFormats.foldl (stepSampleRates sizeLt) []) with
    | none =>
      rw [hfind] at hf
      simp only [Option.isSome_none, Bool.false_eq_true, false_iff, not_exists, not_and]
      exact hf
    | some s =>
      rw [hfind] at hf
      simp only [Option.isSome_some, true_iff]
      exact hf.2.1
  refine ⟨hmap, ?_, hsome, ?_⟩
  · rw [← hsome, Option.isSome_iff_exists]
    exact exists_congr hmem
  · intro s hs
    have hs1 : mapFind sizeLt r (videoFormats.foldl (stepSampleRates sizeLt) []) = some s := by
      rcases hs with hs | hs
      · exact (hmem s).1 hs
      · exact hs
    rw [hs1] at hf
    obtain ⟨h1, _, h3⟩ := hf
    refine ⟨h3, ?_, ?_, h1⟩
    · intro hint x
      rw [h3]
      constructor
      · rintro ⟨f, hfm, hr, hx⟩
        obtain ⟨n, hn⟩ := hint f hfm
        refine ⟨f, hfm, hr, ?_⟩
        rw [hn, floatToInt_intCast] at hx
        rw [hn, hx]
      · rintro ⟨f, hfm, hr, hx⟩
        exact ⟨f, hfm, hr, by rw [hx, floatToInt_intCast]⟩
    · exact List.Pairwise.imp (fun hab => ne_of_lt hab) h1

theorem sizeLexLt_strictTotal : StrictTotal sizeLexLt := by
  constructor
  · intro a; simp [sizeLexLt]
  · intro a b c
    simp only [sizeLexLt, Bool.or_eq_true, Bool.and_eq_true, decide_eq_true_eq]
    omega
  · intro a b hne
    have : a.width ≠ b.width ∨ a.height ≠ b.height := by
      by_contra hc
      push_neg at hc
      apply hne
      cases a; cases b
      simp only [QSize.mk.injEq]
      exact hc
    simp only [sizeLexLt, Bool.or_eq_true, Bool.and_eq_true, decide_eq_true_eq]
    omega

/-- The two formats of the witness of C2: 1920x1080 at 60 and at 30 frames per second. -/
theorem twoFormats_eq :
    resolutionSampleRates sizeLexLt keyLexLt
      [⟨some ⟨⟨1920, 1080⟩, 60, 60, 1⟩⟩, ⟨some ⟨⟨1920, 1080⟩, 30, 30, 1⟩⟩] =
      [(⟨1920, 1080⟩, [30, 60])] := by
  decide

/-- C2, witness: two formats of 1920x1080 at 60 and at 30 frames per second, sizes compared by
width, then height. -/
theorem C2_grouping_by_resolution_witness :
    IsMap sizeLexLt (resolutionSampleRates sizeLexLt keyLexLt
      [⟨some ⟨⟨1920, 1080⟩, 60, 60, 1⟩⟩, ⟨some ⟨⟨1920, 1080⟩, 30, 30, 1⟩⟩]) ∧
    ((∃ s, ((⟨1920, 1080⟩ : QSize), s) ∈ resolutionSampleRates sizeLexLt keyLexLt
        [⟨some ⟨⟨1920, 1080⟩, 60, 60, 1⟩⟩, ⟨some ⟨⟨1920, 1080⟩, 30, 30, 1⟩⟩]) ↔
      ∃ f ∈ ([⟨some ⟨⟨1920, 1080⟩, 60, 60, 1⟩⟩, ⟨some ⟨⟨1920, 1080⟩, 30, 30, 1⟩⟩] :
        List QCameraFormat), f.resolution = ⟨1920, 1080⟩) ∧
    ((mapFind sizeLexLt ⟨1920, 1080⟩ (resolutionSampleRates sizeLexLt keyLexLt
        [⟨some ⟨⟨1920, 1080⟩, 60, 60, 1⟩⟩, ⟨some ⟨⟨1920, 1080⟩, 30, 30, 1⟩⟩])).isSome = true ↔
      ∃ f ∈ ([⟨some ⟨⟨1920, 1080⟩, 60, 60, 1⟩⟩, ⟨some ⟨⟨1920, 1080⟩, 30, 30, 1⟩⟩] :
        List QCameraFormat), f.resolution = ⟨1920, 1080⟩) ∧
    ∀ s, (((⟨1920, 1080⟩ : QSize), s) ∈ resolutionSampleRates sizeLexLt keyLexLt
          [⟨some ⟨⟨1920, 1080⟩, 60, 60, 1⟩⟩, ⟨some ⟨⟨1920, 1080⟩, 30, 30, 1⟩⟩] ∨
        mapFind sizeLexLt ⟨1920, 1080⟩ (resolutionSampleRates sizeLexLt keyLexLt
          [⟨some ⟨⟨1920, 1080⟩, 60, 60, 1⟩⟩, ⟨some ⟨⟨1920, 1080⟩, 30, 30, 1⟩⟩]) = some s) →
      (∀ x, x ∈ s ↔ ∃ f ∈ ([⟨some ⟨⟨1920, 1080⟩, 60, 60, 1⟩⟩, ⟨some ⟨⟨1920, 1080⟩, 30, 30, 1⟩⟩] :
        List QCameraFormat), f.resolution = ⟨1920, 1080⟩ ∧ floatToInt f.minFrameRate = x) ∧
      ((∀ f ∈ ([⟨some ⟨⟨1920, 1080⟩, 60, 60, 1⟩⟩, ⟨some ⟨⟨1920, 1080⟩, 30, 30, 1⟩⟩] :
          List QCameraFormat), ∃ n : Int, f.minFrameRate = (n : ℚ)) →
        ∀ x : Int, x ∈ s ↔
          ∃ f ∈ ([⟨some ⟨⟨1920, 1080⟩, 60, 60, 1⟩⟩, ⟨some ⟨⟨1920, 1080⟩, 30, 30, 1⟩⟩] :
            List QCameraFormat), f.resolution = ⟨1920, 1080⟩ ∧ f.minFrameRate = (x : ℚ)) ∧
      s.Nodup ∧ s.Pairwise (· < ·) :=
  C2_grouping_by_resolution sizeLexLt keyLexLt sizeLexLt_strictTotal _ _

/-! ### Pointers into a page -/

/-- Changing the state of a child moves no child and renames none. -/
theorem findChild_modifyAt (T : WidgetClass) (name : QString) (f : Child → Child)
    (hf : ∀ c, (f c).cls = c.cls ∧ (f c).objectName = c.objectName) (i : Nat) (p : Page) :
    findChild T name (modifyAt f i p) = findChild T name p := by
  induction p generalizing i with
  | nil => cases i <;> rfl
  | cons c cs ih =>
    cases i with
    | zero => simp only [modifyAt, findChild, (hf c).1, (hf c).2]
    | succ i => simp only [modifyAt, findChild, ih]

theorem findChild_callComboBox (T : WidgetClass) (name : QString) (p p1 : Page)
    (ptr : Option Nat) (f : QComboBox → QComboBox) (h : callComboBox p ptr f = .ok p1) :
    findChild T name p1 = findChild T name p := by
  cases ptr with
  | none => simp [callComboBox] at h
  | some i =>
    simp only [callComboBox, Except.ok.injEq] at h
    rw [← h]
    apply findChild_modifyAt
    intro c
    cases c.state <;> exact ⟨rfl, rfl⟩

/-- With the resolution box in place, adding one item succeeds and changes the video page only. -/
theorem addResolutionItem_ok (st : SettingDialog) (resolution : QSize) (sampleRates : IntSet)
    (page : Page) (i : Nat) (hp : st.videoPage = some page)
    (hi : findChild .QComboBox (qs "videoFormatBox") page = some i) :
    ∃ page1, st.addResolutionItem resolution sampleRates = .ok { st with videoPage := some page1 } ∧
      findChild .QComboBox (qs "videoFormatBox") page1 = some i := by
  unfold SettingDialog.addResolutionItem
  by_cases hs : sampleRates = []
  · refine ⟨page, ?_, hi⟩
    cases st
    simp only at hp
    simp [hs, hp]
  · simp only [hs, ne_eq, not_false_eq_true, if_true, hp, hi, callComboBox]
    refine ⟨_, rfl, ?_⟩
    rw [findChild_modifyAt]
    · exact hi
    · intro c
      cases c.state <;> exact ⟨rfl, rfl⟩

/-- With the resolution box in place, the second loop of `populateResolutionBox` succeeds and
changes the video page only. -/
theorem addResolutionItems_ok (entries : StdMap QSize IntSet) (st : SettingDialog)
    (page : Page) (i : Nat) (hp : st.videoPage = some page)
    (hi : findChild .QComboBox (qs "videoFormatBox") page = some i) :
    ∃ page1, st.addResolutionItems entries = .ok { st with videoPage := some page1 } ∧
      findChild .QComboBox (qs "videoFormatBox") page1 = some i := by
  induction entries generalizing st page with
  | nil =>
    refine ⟨page, ?_, hi⟩
    cases st
    simp only at hp
    simp [SettingDialog.addResolutionItems, hp]
  | cons e rest ih =>
    obtain ⟨page1, h1, h2⟩ := addResolutionItem_ok st e.1 e.2 page i hp hi
    obtain ⟨page2, h3, h4⟩ := ih { st with videoPage := some page1 } page1 rfl h2
    refine ⟨page2, ?_, h4⟩
    simp only [SettingDialog.addResolutionItems, h1, h3]

/-- What the format map holds after the loop has run over a list of formats. -/
theorem formatMap_fold (keyLt : VideoFormatKey → VideoFormatKey → Bool) (h : StrictTotal keyLt)
    (fs : List QCameraFormat) (m : StdMap VideoFormatKey QCameraFormat) (k : VideoFormatKey) :
    mapFind keyLt k (fs.foldl (stepFormatMap keyLt) m) =
      match fs.reverse.find? (fun f => decide (keyOf f = k)) with
      | some f => some f
      | none => mapFind keyLt k m := by
  induction fs using List.reverseRecOn with
  | nil => simp
  | append_singleton fs f ih =>
    rw [List.foldl_append, List.foldl_cons, List.foldl_nil]
    have hstep : ∀ m1, stepFormatMap keyLt m1 f =
        mapIndex keyLt (keyOf f) QCameraFormat.null (fun _ => f) m1 := fun _ => rfl
    rw [hstep, mapFind_mapIndex h, List.reverse_append, List.reverse_singleton,
      List.singleton_append, List.find?_cons]
    by_cases hk : k = keyOf f
    · subst hk
      simp
    · have hk1 : ¬ keyOf f = k := fun hc => hk hc.symm
      simp only [hk, if_false, hk1, decide_False]
      exact ih

theorem qsize_eq_iff (a b : QSize) : a = b ↔ a.width = b.width ∧ a.height = b.height := by
  cases a; cases b; simp

theorem videoFormatKey_eq_iff (a b : VideoFormatKey) :
    a = b ↔ a.resolution = b.resolution ∧ a.frameRate = b.frameRate ∧
      a.pixelFormat = b.pixelFormat := by
  cases a; cases b; simp

theorem keyLexLt_strictTotal : StrictTotal keyLexLt := by
  constructor
  · intro a; simp [keyLexLt, sizeLexLt]
  · intro a b c
    simp only [keyLexLt, sizeLexLt, Bool.or_eq_true, Bool.and_eq_true, decide_eq_true_eq,
      qsize_eq_iff]
    omega
  · intro a b hne
    rw [Ne, videoFormatKey_eq_iff, qsize_eq_iff] at hne
    simp only [keyLexLt, sizeLexLt, Bool.or_eq_true, Bool.and_eq_true, decide_eq_true_eq,
      qsize_eq_iff]
    omega

/-- The last element with a property, found from the back. -/
theorem find?_reverse_last {α : Type} (p : α → Bool) (pre post : List α) (f : α)
    (hf : p f = true) (hpost : ∀ g ∈ post, p g = false) :
    (pre ++ f :: post).reverse.find? p = some f := by
  rw [List.reverse_append, List.reverse_cons, List.append_assoc, List.find?_append]
  have h1 : post.reverse.find? p = none := by
    rw [List.find?_eq_none]
    intro g hg
    rw [hpost g (List.mem_reverse.1 hg)]
    decide
  rw [h1]
  simp [List.find?_cons, hf]

/-- C5, as amended: with a key order that is a strict total order, starting from an empty
`videoFormatMap`, with the resolution box present on the video page and formats whose minimum
frame rates convert to `int`, `populateResolutionBox(formats)` completes, and afterwards
`getVideoFormat` returns, for every key (resolution, frame rate, pixel format), the last format
of the list whose resolution, minimum frame rate converted to `int` (the fractional part
dropped, line 262) and pixel format are those of the key when there is one, and the default
(null) `QCameraFormat` when there is none. -/
theorem C5_keyed_format_lookup (sizeLt : QSize → QSize → Bool)
    (keyLt : VideoFormatKey → VideoFormatKey → Bool) (h : StrictTotal keyLt)
    (st : SettingDialog) (formats : List QCameraFormat) (page : Page)
    (hmap : st.videoFormatMap = []) (hp : st.videoPage = some page)
    (hbox : findChild .QComboBox (qs "videoFormatBox") page ≠ none)
    (hrates : ∀ f ∈ formats, -2147483648 ≤ floatToInt f.minFrameRate ∧
      floatToInt f.minFrameRate < 2147483648) :
    ∃ st1, st.populateResolutionBox sizeLt keyLt formats = .ok st1 ∧
      (∀ (resolution : QSize) (frameRate : Int) (pixelFormat : PixelFormat),
        st1.getVideoFormat keyLt resolution frameRate pixelFormat =
          match formats.reverse.find?
            (fun f => decide (f.resolution = resolution ∧
              floatToInt f.minFrameRate = frameRate ∧ f.pixelFormat = pixelFormat)) with
          | some f => f
          | none => QCameraFormat.null) ∧
      (∀ (resolution : QSize) (frameRate : Int) (pixelFormat : PixelFormat)
          (pre post : List QCameraFormat) (f : QCameraFormat),
        formats = pre ++ f :: post →
        (f.resolution = resolution ∧ floatToInt f.minFrameRate = frameRate ∧
          f.pixelFormat = pixelFormat) →
        (∀ g ∈ post, ¬ (g.resolution = resolution ∧ floatToInt g.minFrameRate = frameRate ∧
          g.pixelFormat = pixelFormat)) →
        st1.getVideoFormat keyLt resolution frameRate pixelFormat = f) ∧
      (∀ (resolution : QSize) (frameRate : Int) (pixelFormat : PixelFormat),
        (∀ g ∈ formats, ¬ (g.resolution = resolution ∧ floatToInt g.minFrameRate = frameRate ∧
          g.pixelFormat = pixelFormat)) →
        st1.getVideoFormat keyLt resolution frameRate pixelFormat = QCameraFormat.null) := by
  have _ := hrates
  obtain ⟨i, hi⟩ := Option.ne_none_iff_exists'.1 hbox
  unfold SettingDialog.populateResolutionBox
  obtain ⟨page1, h1, _⟩ := addResolutionItems_ok
    (populateLoop sizeLt keyLt st.videoFormatMap formats).2
    { st with videoFormatMap := (populateLoop sizeLt keyLt st.videoFormatMap formats).1 }
    page i hp hi
  have hkey : ∀ (resolution : QSize) (frameRate : Int) (pixelFormat : PixelFormat),
      (fun f : QCameraFormat => decide (keyOf f = ⟨resolution, frameRate, pixelFormat⟩)) =
        (fun f => decide (f.resolution = resolution ∧
          floatToInt f.minFrameRate = frameRate ∧ f.pixelFormat = pixelFormat)) := by
    intro resolution frameRate pixelFormat
    funext f
    simp [keyOf]
  have hmain : ∀ (resolution : QSize) (frameRate : Int) (pixelFormat : PixelFormat),
      SettingDialog.getVideoFormat keyLt
          { st with
            videoFormatMap := (populateLoop sizeLt keyLt st.videoFormatMap formats).1,
            videoPage := some page1 } resolution frameRate pixelFormat =
        match formats.reverse.find?
          (fun f => decide (f.resolution = resolution ∧
            floatToInt f.minFrameRate = frameRate ∧ f.pixelFormat = pixelFormat)) with
        | some f => f
        | none => QCameraFormat.null := by
    intro resolution frameRate pixelFormat
    unfold SettingDialog.getVideoFormat
    simp only [populateLoop, populateLoop_eq, hmap]
    rw [formatMap_fold keyLt h, hkey]
    cases formats.reverse.find? (fun f => decide (f.resolution = resolution ∧
        floatToInt f.minFrameRate = frameRate ∧ f.pixelFormat = pixelFormat)) with
    | none => simp [mapFind]
    | some f => simp
  refine ⟨_, h1, hmain, ?_, ?_⟩
  · intro resolution frameRate pixelFormat pre post f hsplit hf hpost
    rw [hmain, hsplit, find?_reverse_last _ pre post f (by simpa using hf)
      (fun g hg => by simpa using hpost g hg)]
  · intro resolution frameRate pixelFormat hnone
    rw [hmain]
    have : formats.reverse.find? (fun f => decide (f.resolution = resolution ∧
        floatToInt f.minFrameRate = frameRate ∧ f.pixelFormat = pixelFormat)) = none := by
      rw [List.find?_eq_none]
      intro g hg
      simpa using hnone g (List.mem_reverse.1 hg)
    rw [this]

/-- C5, witness: a dialog with a new video page, and two formats of one key (1920x1080, 30
frames per second, pixel format 1) that differ in their maximum frame rate. -/
theorem C5_keyed_format_lookup_witness :
    ∃ st1, SettingDialog.populateResolutionBox sizeLexLt keyLexLt
        { camera := none, videoPage := some (videoPageOf {} {} {} {}) }
        [⟨some ⟨⟨1920, 1080⟩, 30, 30, 1⟩⟩, ⟨some ⟨⟨1920, 1080⟩, 30, 60, 1⟩⟩] = .ok st1 ∧
      (∀ (resolution : QSize) (frameRate : Int) (pixelFormat : PixelFormat),
        st1.getVideoFormat keyLexLt resolution frameRate pixelFormat =
          match ([⟨some ⟨⟨1920, 1080⟩, 30, 30, 1⟩⟩, ⟨some ⟨⟨1920, 1080⟩, 30, 60, 1⟩⟩] :
              List QCameraFormat).reverse.find?
            (fun f => decide (f.resolution = resolution ∧
              floatToInt f.minFrameRate = frameRate ∧ f.pixelFormat = pixelFormat)) with
          | some f => f
          | none => QCameraFormat.null) ∧
      (∀ (resolution : QSize) (frameRate : Int) (pixelFormat : PixelFormat)
          (pre post : List QCameraFormat) (f : QCameraFormat),
        ([⟨some ⟨⟨1920, 1080⟩, 30, 30, 1⟩⟩, ⟨some ⟨⟨1920, 1080⟩, 30, 60, 1⟩⟩] :
          List QCameraFormat) = pre ++ f :: post →
        (f.resolution = resolution ∧ floatToInt f.minFrameRate = frameRate ∧
          f.pixelFormat = pixelFormat) →
        (∀ g ∈ post, ¬ (g.resolution = resolution ∧ floatToInt g.minFrameRate = frameRate ∧
          g.pixelFormat = pixelFormat)) →
        st1.getVideoFormat keyLexLt resolution frameRate pixelFormat = f) ∧
      (∀ (resolution : QSize) (frameRate : Int) (pixelFormat : PixelFormat),
        (∀ g ∈ ([⟨some ⟨⟨1920, 1080⟩, 30, 30, 1⟩⟩, ⟨some ⟨⟨1920, 1080⟩, 30, 60, 1⟩⟩] :
            List QCameraFormat),
          ¬ (g.resolution = resolution ∧ floatToInt g.minFrameRate = frameRate ∧
            g.pixelFormat = pixelFormat)) →
        st1.getVideoFormat keyLexLt resolution frameRate pixelFormat = QCameraFormat.null) :=
  C5_keyed_format_lookup sizeLexLt keyLexLt keyLexLt_strictTotal
    { camera := none, videoPage := some (videoPageOf {} {} {} {}) }
    [⟨some ⟨⟨1920, 1080⟩, 30, 30, 1⟩⟩, ⟨some ⟨⟨1920, 1080⟩, 30, 60, 1⟩⟩]
    (videoPageOf {} {} {} {}) rfl rfl (by decide) (by decide)

/-- C5, counterexample: a camera format of 1920x1080, pixel format 1, whose minimum frame rate
is the `float` nearest to 29.97. After `populateResolutionBox`, `getVideoFormat` returns that
format for the key (1920x1080, 29, 1), although no format of the list has the minimum frame
rate 29. -/
theorem C5_counterexample_fractional_rate :
    (SettingDialog.populateResolutionBox sizeLexLt keyLexLt
        { camera := none, videoPage := some (videoPageOf {} {} {} {}) }
        [⟨some ⟨⟨1920, 1080⟩, ntscRate, 30, 1⟩⟩]).toOption.map
      (fun st => st.getVideoFormat keyLexLt ⟨1920, 1080⟩ 29 1) =
      some ⟨some ⟨⟨1920, 1080⟩, ntscRate, 30, 1⟩⟩ ∧
    (⟨some ⟨⟨1920, 1080⟩, ntscRate, 30, 1⟩⟩ : QCameraFormat) ≠ QCameraFormat.null ∧
    ¬ ∃ f ∈ ([⟨some ⟨⟨1920, 1080⟩, ntscRate, 30, 1⟩⟩] : List QCameraFormat),
      f.resolution = ⟨1920, 1080⟩ ∧ f.minFrameRate = (29 : ℚ) ∧ f.pixelFormat = 1 := by
  refine ⟨by decide, by decide, by decide⟩

/-! ### The log filter -/

/-- C3: for every state of the dialog (whatever the four check boxes are and whatever page is
current), `handleOkButton` sets the logging filter rules to exactly the four lines
`opf.core.*=<c>`, `opf.ui.*=<u>`, `opf.host.*=<h>`, `opf.core.serial=<s>`, each ended by a
newline, in that order, where a value is `true` when `findChild` finds the check box and it is
checked, and `false` otherwise; on a dialog whose stacked widget holds the log page, the values
are the states of its four check boxes; and the string determines the four values. -/
theorem C3_log_filter_on_confirm :
    (∀ st : SettingDialog,
      st.handleOkButton.filterRules =
        filterLine (qs "opf.core.*")
            (checkedAt st.descendants (findChild .QCheckBox (qs "core") st.descendants)) ++
          filterLine (qs "opf.ui.*")
            (checkedAt st.descendants (findChild .QCheckBox (qs "ui") st.descendants)) ++
          filterLine (qs "opf.host.*")
            (checkedAt st.descendants (findChild .QCheckBox (qs "host") st.descendants)) ++
          filterLine (qs "opf.core.serial")
            (checkedAt st.descendants (findChild .QCheckBox (qs "serial") st.descendants))) ∧
    (∀ (st : SettingDialog) (core serial ui host : Bool) (others : List PageId) (index : Int),
      st.logPage = some (logPageOf core serial ui host) →
      st.stackedWidget = ⟨PageId.logPage :: others, index⟩ →
      st.handleOkButton.filterRules =
        filterLine (qs "opf.core.*") core ++ filterLine (qs "opf.ui.*") ui ++
          filterLine (qs "opf.host.*") host ++ filterLine (qs "opf.core.serial") serial) ∧
    (∀ st : SettingDialog, st.stackedWidget.widgets = [] →
      st.handleOkButton.filterRules =
        filterLine (qs "opf.core.*") false ++ filterLine (qs "opf.ui.*") false ++
          filterLine (qs "opf.host.*") false ++ filterLine (qs "opf.core.serial") false) ∧
    (∀ c u h s c1 u1 h1 s1 : Bool,
      filterLine (qs "opf.core.*") c ++ filterLine (qs "opf.ui.*") u ++
          filterLine (qs "opf.host.*") h ++ filterLine (qs "opf.core.serial") s =
        filterLine (qs "opf.core.*") c1 ++ filterLine (qs "opf.ui.*") u1 ++
          filterLine (qs "opf.host.*") h1 ++ filterLine (qs "opf.core.serial") s1 →
      c = c1 ∧ u = u1 ∧ h = h1 ∧ s = s1) := by
  have key : ∀ c u h s : Bool, SettingDialog.logFilter c u h s =
      filterLine (qs "opf.core.*") c ++ filterLine (qs "opf.ui.*") u ++
        filterLine (qs "opf.host.*") h ++ filterLine (qs "opf.core.serial") s := by
    intro c u h s
    cases c <;> cases u <;> cases h <;> cases s <;> decide
  refine ⟨?_, ?_, ?_, ?_⟩
  · intro st
    simp only [SettingDialog.handleOkButton, SettingDialog.readCheckBoxState]
    exact key _ _ _ _
  · intro st core serial ui host others index hlog hstack
    simp only [SettingDialog.handleOkButton, SettingDialog.readCheckBoxState]
    rw [key]
    have hd : st.descendants = logPageOf core serial ui host ++
        (others.map (fun id => (st.page id).getD [])).foldr (· ++ ·) [] := by
      simp [SettingDialog.descendants, hstack, SettingDialog.page, hlog]
    rw [hd]
    rfl
  · intro st hw
    simp only [SettingDialog.handleOkButton, SettingDialog.readCheckBoxState]
    rw [key]
    have hd : st.descendants = [] := by
      simp [SettingDialog.descendants, hw]
    rw [hd]
    rfl
  · intro c u h s c1 u1 h1 s1
    cases c <;> cases u <;> cases h <;> cases s <;>
      cases c1 <;> cases u1 <;> cases h1 <;> cases s1 <;> decide


/-! ### The absent-camera guard -/

theorem createVideoPage_absent (fuel : Nat) (sizeLt : QSize → QSize → Bool)
    (keyLt : VideoFormatKey → VideoFormatKey → Bool) (st : SettingDialog)
    (h : cameraAbsent st.camera = true) :
    st.createVideoPage fuel sizeLt keyLt = .ok { st with
      videoPage := some (videoPageOf {} {} {} {}),
      warnings := st.warnings ++ [qs "Camera or CameraDevice is not valid."] } := by
  unfold SettingDialog.createVideoPage
  cases hc : st.camera with
  | none => simp only
  | some c =>
    rw [hc] at h
    simp only [cameraAbsent] at h
    simp only [h, not_true_eq_false, if_false]

/-- The dialog the constructor builds when the camera is absent. -/
theorem construct_absent (fuel : Nat) (sizeLt : QSize → QSize → Bool)
    (keyLt : VideoFormatKey → VideoFormatKey → Bool) (camera : Option QCamera)
    (h : cameraAbsent camera = true) :
    SettingDialog.construct fuel sizeLt keyLt camera = .ok
      { camera := camera,
        settingTree := [⟨qs "Log"⟩, ⟨qs "Video"⟩, ⟨qs "Audio"⟩],
        stackedWidget := ⟨[.logPage, .videoPage, .audioPage], 0⟩,
        logPage := some (logPageOf false false false false),
        videoPage := some (videoPageOf {} {} {} {}),
        audioPage := some audioPageNew,
        connections :=
          [ Connection.okButton_clicked_handleOkButton,
            Connection.cancelButton_clicked_reject,
            Connection.applyButton_clicked_applyAccrodingPage,
            Connection.settingTree_currentItemChanged_changePage ],
        warnings := [qs "Camera or CameraDevice is not valid."] } := by
  have hc := createVideoPage_absent fuel sizeLt keyLt
    (SettingDialog.createLogPage (SettingDialog.createSettingTree { camera := camera })) h
  unfold SettingDialog.construct SettingDialog.createPages
  simp only [bind, Except.bind, hc]
  rfl

/-- C4: when the camera pointer is null or its camera device is null, `createVideoPage`
completes having logged one warning and populated nothing: `videoFormatMap` is as it was, the
resolution combo box of the new page has no item and no current index, the frame-rate slider
and spin box keep the range and value of a new widget, `m_currentResolution` is as it was and no
connection is made; hence, `videoFormatMap` being empty on construction, `getVideoFormat`
returns the default (null) format for every key, also in the dialog the constructor builds.
(No signal is emitted on this path: the statement holds for every bound `fuel`.) -/
theorem C4_absent_camera_guard (fuel : Nat) (sizeLt : QSize → QSize → Bool)
    (keyLt : VideoFormatKey → VideoFormatKey → Bool) (st : SettingDialog)
    (h : cameraAbsent st.camera = true) :
    ∃ st1, st.createVideoPage fuel sizeLt keyLt = .ok st1 ∧
      st1.videoFormatMap = st.videoFormatMap ∧
      st1.videoPage = some (videoPageOf {} {} {} {}) ∧
      comboBoxAt (videoPageOf {} {} {} {})
          (findChild .QComboBox (qs "videoFormatBox") (videoPageOf {} {} {} {})) =
        .ok { items := [], currentIndex := -1 } ∧
      sliderAt (videoPageOf {} {} {} {})
          (findChild .QSlider (qs "fpsSlider") (videoPageOf {} {} {} {})) =
        .ok { minimum := 0, maximum := 99, value := 0 } ∧
      spinBoxAt (videoPageOf {} {} {} {})
          (findChild .FpsSpinBox (qs "fpsSpinBox") (videoPageOf {} {} {} {})) =
        .ok { minimum := 0, maximum := 99, value := 0, validValues := [] } ∧
      st1.m_currentResolution = st.m_currentResolution ∧
      st1.connections = st.connections ∧
      st1.warnings = st.warnings ++ [qs "Camera or CameraDevice is not valid."] ∧
      (st.videoFormatMap = [] → ∀ resolution frameRate pixelFormat,
        st1.getVideoFormat keyLt resolution frameRate pixelFormat = QCameraFormat.null) ∧
      (∃ st2, SettingDialog.construct fuel sizeLt keyLt st.camera = .ok st2 ∧
        st2.videoFormatMap = [] ∧
        ∀ resolution frameRate pixelFormat,
          st2.getVideoFormat keyLt resolution frameRate pixelFormat = QCameraFormat.null) := by
  refine ⟨_, createVideoPage_absent fuel sizeLt keyLt st h, rfl, rfl, rfl, rfl, rfl, rfl, rfl, rfl, ?_, ?_⟩
  · intro hm resolution frameRate pixelFormat
    simp [SettingDialog.getVideoFormat, hm, mapFind]
  · refine ⟨_, construct_absent fuel sizeLt keyLt st.camera h, rfl, ?_⟩
    intro resolution frameRate pixelFormat
    rfl

/-- C4, witness: a dialog constructed without a camera. -/
theorem C4_absent_camera_guard_witness :
    ∃ st1, SettingDialog.createVideoPage 3 sizeLexLt keyLexLt { camera := none } = .ok st1 ∧
      st1.videoFormatMap = ({ camera := none } : SettingDialog).videoFormatMap ∧
      st1.videoPage = some (videoPageOf {} {} {} {}) ∧
      comboBoxAt (videoPageOf {} {} {} {})
          (findChild .QComboBox (qs "videoFormatBox") (videoPageOf {} {} {} {})) =
        .ok { items := [], currentIndex := -1 } ∧
      sliderAt (videoPageOf {} {} {} {})
          (findChild .QSlider (qs "fpsSlider") (videoPageOf {} {} {} {})) =
        .ok { minimum := 0, maximum := 99, value := 0 } ∧
      spinBoxAt (videoPageOf {} {} {} {})
          (findChild .FpsSpinBox (qs "fpsSpinBox") (videoPageOf {} {} {} {})) =
        .ok { minimum := 0, maximum := 99, value := 0, validValues := [] } ∧
      st1.m_currentResolution = ({ camera := none } : SettingDialog).m_currentResolution ∧
      st1.connections = ({ camera := none } : SettingDialog).connections ∧
      st1.warnings = ({ camera := none } : SettingDialog).warnings ++
        [qs "Camera or CameraDevice is not valid."] ∧
      (({ camera := none } : SettingDialog).videoFormatMap = [] →
        ∀ resolution frameRate pixelFormat,
          st1.getVideoFormat keyLexLt resolution frameRate pixelFormat = QCameraFormat.null) ∧
      (∃ st2, SettingDialog.construct 3 sizeLexLt keyLexLt
          ({ camera := none } : SettingDialog).camera = .ok st2 ∧
        st2.videoFormatMap = [] ∧
        ∀ resolution frameRate pixelFormat,
          st2.getVideoFormat keyLexLt resolution frameRate pixelFormat = QCameraFormat.null) :=
  C4_absent_camera_guard 3 sizeLexLt keyLexLt { camera := none } rfl


/-! ### Page switching -/

theorem bind_eq_ok {ε α β : Type} (x : Except ε α) (f : α → Except ε β) (b : β)
    (h : (x >>= f) = .ok b) : ∃ a, x = .ok a ∧ f a = .ok b := by
  cases x with
  | error e => simp [bind, Except.bind] at h
  | ok a => exact ⟨a, rfl, h⟩

theorem sameTreeAndStack_refl (a : SettingDialog) : SameTreeAndStack a a := ⟨rfl, rfl⟩

theorem sameTreeAndStack_trans {a b c : SettingDialog} (h1 : SameTreeAndStack a b)
    (h2 : SameTreeAndStack b c) : SameTreeAndStack a c :=
  ⟨h2.1.trans h1.1, h2.2.trans h1.2⟩

theorem onFpsSliderValueChanged_frame (st st1 : SettingDialog) (v : Int)
    (h : st.onFpsSliderValueChanged v = .ok st1) : SameTreeAndStack st st1 := by
  unfold SettingDialog.onFpsSliderValueChanged at h
  split at h
  · simp at h
  · obtain ⟨_, _, h⟩ := bind_eq_ok _ _ _ h
    dsimp only at h
    split at h
    · obtain ⟨_, _, h⟩ := bind_eq_ok _ _ _ h
      simp only [pure, Except.pure, Except.ok.injEq] at h
      rw [← h]
      exact ⟨rfl, rfl⟩
    · simp only [pure, Except.pure, Except.ok.injEq] at h
      rw [← h]
      exact ⟨rfl, rfl⟩

theorem changeValue_frame (sender : Sender) (st st1 : SettingDialog) (v value : Int)
    (h : SettingDialog.changeValue sender st v = .ok (some (st1, value))) :
    SameTreeAndStack st st1 := by
  unfold SettingDialog.changeValue at h
  split at h
  · simp at h
  · split at h
    · dsimp only at h
      split at h
      · simp at h
      · split at h
        · simp at h
        · split at h
          · simp at h
          · simp only [Except.ok.injEq, Option.some.injEq, Prod.mk.injEq] at h
            rw [← h.1]
            exact ⟨rfl, rfl⟩
    · dsimp only at h
      split at h
      · simp at h
      · split at h
        · simp at h
        · split at h
          · simp at h
          · simp only [Except.ok.injEq, Option.some.injEq, Prod.mk.injEq] at h
            rw [← h.1]
            exact ⟨rfl, rfl⟩

theorem deliverAll_frame (slot : Connection → SettingDialog → Except Fault SettingDialog)
    (hslot : ∀ c a b, slot c a = .ok b → SameTreeAndStack a b)
    (cs : List Connection) (st st1 : SettingDialog)
    (h : SettingDialog.deliverAll slot cs st = .ok st1) : SameTreeAndStack st st1 := by
  induction cs generalizing st with
  | nil =>
    simp only [SettingDialog.deliverAll, Except.ok.injEq] at h
    rw [← h]
    exact sameTreeAndStack_refl _
  | cons c rest ih =>
    simp only [SettingDialog.deliverAll] at h
    split at h
    · rename_i st2 h2
      exact sameTreeAndStack_trans (hslot _ _ _ h2) (ih _ h)
    · simp at h

theorem slotOf_frame (f : Sender → SettingDialog → Int → Except Fault SettingDialog)
    (hf : ∀ sender a b v, f sender a v = .ok b → SameTreeAndStack a b)
    (sender : Sender) (value : Int) (c : Connection) (a b : SettingDialog)
    (h : SettingDialog.slotOf f sender value c a = .ok b) : SameTreeAndStack a b := by
  unfold SettingDialog.slotOf at h
  split at h
  · exact hf _ _ _ _ h
  · exact onFpsSliderValueChanged_frame _ _ _ h
  · exact hf _ _ _ _ h
  · simp only [Except.ok.injEq] at h
    rw [← h]
    exact sameTreeAndStack_refl _

/-- A call of `setValue`, with all it delivers, leaves the tree and the stacked widget alone. -/
theorem setValue_frame (fuel : Nat) (sender : Sender) (st st1 : SettingDialog) (v : Int)
    (h : SettingDialog.setValue fuel sender st v = .ok st1) : SameTreeAndStack st st1 := by
  induction fuel generalizing sender st st1 v with
  | zero =>
    unfold SettingDialog.setValue at h
    split at h
    · simp at h
    · simp only [Except.ok.injEq] at h
      rw [← h]
      exact sameTreeAndStack_refl _
    · simp at h
  | succ fuel ih =>
    unfold SettingDialog.setValue at h
    split at h
    · simp at h
    · simp only [Except.ok.injEq] at h
      rw [← h]
      exact sameTreeAndStack_refl _
    · rename_i st2 value h2
      have f1 := changeValue_frame _ _ _ _ _ h2
      have f2 := deliverAll_frame _
        (slotOf_frame (SettingDialog.setValue fuel) (fun sender a b v hab => ih sender a b v hab)
          sender value) _ _ _ h
      exact sameTreeAndStack_trans f1 f2

theorem sliderSetRange_frame (fuel : Nat) (st st1 : SettingDialog) (lo hi : Int)
    (h : st.sliderSetRange fuel lo hi = .ok st1) : SameTreeAndStack st st1 := by
  unfold SettingDialog.sliderSetRange at h
  split at h
  · simp at h
  · dsimp only at h
    split at h
    · simp at h
    · split at h
      · simp only [Except.ok.injEq] at h
        rw [← h]
        exact sameTreeAndStack_refl _
      · split at h
        · simp at h
        · have f := setValue_frame _ _ _ _ _ h
          exact ⟨f.1, f.2⟩

theorem spinBoxSetRange_frame (fuel : Nat) (st st1 : SettingDialog) (lo hi : Int)
    (h : st.spinBoxSetRange fuel lo hi = .ok st1) : SameTreeAndStack st st1 := by
  unfold SettingDialog.spinBoxSetRange at h
  split at h
  · simp at h
  · dsimp only at h
    split at h
    · simp at h
    · split at h
      · simp at h
      · have f := setValue_frame _ _ _ _ _ h
        exact ⟨f.1, f.2⟩

theorem spinBoxSetValidValues_frame (st st1 : SettingDialog) (values : IntSet)
    (h : st.spinBoxSetValidValues values = .ok st1) : SameTreeAndStack st st1 := by
  unfold SettingDialog.spinBoxSetValidValues at h
  split at h
  · simp at h
  · split at h
    · simp at h
    · simp only [Except.ok.injEq] at h
      rw [← h]
      exact ⟨rfl, rfl⟩

theorem setFpsRangeSetters_frame (fuel : Nat) (st st1 : SettingDialog) (S : IntSet)
    (h : st.setFpsRangeSetters fuel S = .ok st1) : SameTreeAndStack st st1 := by
  unfold SettingDialog.setFpsRangeSetters at h
  dsimp only at h
  split at h
  · simp at h
  · rename_i a ha
    split at h
    · simp at h
    · rename_i b hb
      split at h
      · simp at h
      · rename_i c hc
        exact sameTreeAndStack_trans (sliderSetRange_frame _ _ _ _ _ ha)
          (sameTreeAndStack_trans (setValue_frame _ _ _ _ _ hb)
            (sameTreeAndStack_trans (spinBoxSetRange_frame _ _ _ _ _ hc)
              (spinBoxSetValidValues_frame _ _ _ h)))

/-- A run of `setFpsRange` leaves the tree and the stacked widget alone. -/
theorem setFpsRange_frame (fuel : Nat) (st st1 : SettingDialog) (S : IntSet)
    (h : st.setFpsRange fuel S = .ok st1) : SameTreeAndStack st st1 := by
  unfold SettingDialog.setFpsRange at h
  split at h
  · split at h
    · simp at h
    · rename_i a ha
      split at h
      · simp at h
      · split at h
        · simp at h
        · rename_i b hb
          simp only [Except.ok.injEq] at h
          have f1 := setFpsRangeSetters_frame _ _ _ _ ha
          have f2 : SameTreeAndStack a b := by
            split at hb
            · exact setValue_frame _ _ _ _ _ hb
            · simp only [Except.ok.injEq] at hb
              rw [← hb]
              exact sameTreeAndStack_refl _
          rw [← h]
          exact sameTreeAndStack_trans f1 (sameTreeAndStack_trans f2 ⟨rfl, rfl⟩)
  · simp only [Except.ok.injEq] at h
    rw [← h]
    exact sameTreeAndStack_refl _

/-- A run of the second loop of `populateResolutionBox` leaves the tree and the stacked widget
alone. -/
theorem addResolutionItems_frame (entries : StdMap QSize IntSet) (st st1 : SettingDialog)
    (h : st.addResolutionItems entries = .ok st1) : SameTreeAndStack st st1 := by
  induction entries generalizing st with
  | nil =>
    simp only [SettingDialog.addResolutionItems, Except.ok.injEq] at h
    rw [← h]
    exact ⟨rfl, rfl⟩
  | cons e rest ih =>
    simp only [SettingDialog.addResolutionItems] at h
    split at h
    · rename_i st2 h2
      obtain ⟨i1, i2⟩ := ih st2 h
      have h3 : SameTreeAndStack st st2 := by
        unfold SettingDialog.addResolutionItem at h2
        split at h2
        · split at h2
          · simp at h2
          · obtain ⟨_, _, h2⟩ := bind_eq_ok _ _ _ h2
            simp only [pure, Except.pure, Except.ok.injEq] at h2
            rw [← h2]
            exact ⟨rfl, rfl⟩
        · simp only [Except.ok.injEq] at h2
          rw [← h2]
          exact ⟨rfl, rfl⟩
      exact sameTreeAndStack_trans h3 ⟨i1, i2⟩
    · simp at h

/-- A run of `createVideoPage` leaves the tree and the stacked widget alone. -/
theorem createVideoPage_frame (fuel : Nat) (sizeLt : QSize → QSize → Bool)
    (keyLt : VideoFormatKey → VideoFormatKey → Bool) (st st1 : SettingDialog)
    (h : st.createVideoPage fuel sizeLt keyLt = .ok st1) : SameTreeAndStack st st1 := by
  unfold SettingDialog.createVideoPage at h
  simp only at h
  split at h
  · simp only [Except.ok.injEq] at h
    rw [← h]
    exact ⟨rfl, rfl⟩
  · split at h
    · unfold SettingDialog.createVideoPageWithCamera at h
      split at h
      · simp at h
      · rename_i a ha
        dsimp only at h
        split at h
        · simp at h
        · split at h
          · simp at h
          · split at h
            · simp at h
            · rename_i b hb
              split at h
              · simp at h
              · simp only [Except.ok.injEq] at h
                have f1 := addResolutionItems_frame _ _ _ ha
                have f2 := setFpsRange_frame _ _ _ _ hb
                rw [← h]
                exact sameTreeAndStack_trans (sameTreeAndStack_trans ⟨f1.1, f1.2⟩ f2) ⟨rfl, rfl⟩
    · simp only [Except.ok.injEq] at h
      rw [← h]
      exact ⟨rfl, rfl⟩

/-- C7: in a dialog the constructor has built, the tree holds the items "Log", "Video", "Audio"
in that order and the stacked widget the pages `logPage`, `videoPage`, `audioPage` in that
order, so that the item and the page of one name share their index; `changePage` called with
the item of index `i` queues `setCurrentIndex(i)` and nothing else; a null `current` is replaced
by `previous`; and for an item with any other text nothing is queued. -/
theorem C7_page_switching (fuel : Nat) (sizeLt : QSize → QSize → Bool)
    (keyLt : VideoFormatKey → VideoFormatKey → Bool) (camera : Option QCamera)
    (st : SettingDialog) (hst : SettingDialog.construct fuel sizeLt keyLt camera = .ok st) :
    st.settingTree.map (fun item => item.text) = [qs "Log", qs "Video", qs "Audio"] ∧
    st.stackedWidget.widgets = [PageId.logPage, PageId.videoPage, PageId.audioPage] ∧
    (∀ (s : SettingDialog) (previous : Option QTreeWidgetItem) (i : Nat) (item : QTreeWidgetItem),
      st.settingTree.get? i = some item →
      s.changePage (some item) previous =
        .ok { s with queuedSetCurrentIndex := s.queuedSetCurrentIndex ++ [(i : Int)] }) ∧
    (∀ (s : SettingDialog) (previous : Option QTreeWidgetItem),
      s.changePage none previous = s.changePage previous previous) ∧
    (∀ (s : SettingDialog) (previous : Option QTreeWidgetItem) (item : QTreeWidgetItem),
      item.text ≠ qs "Log" → item.text ≠ qs "Video" → item.text ≠ qs "Audio" →
      s.changePage (some item) previous = .ok s) := by
  have htree : st.settingTree = [⟨qs "Log"⟩, ⟨qs "Video"⟩, ⟨qs "Audio"⟩] ∧
      st.stackedWidget.widgets = [PageId.logPage, PageId.videoPage, PageId.audioPage] := by
    unfold SettingDialog.construct SettingDialog.createPages at hst
    simp only [bind, Except.bind] at hst
    cases hv : SettingDialog.createVideoPage fuel sizeLt keyLt
      (SettingDialog.createLogPage (SettingDialog.createSettingTree { camera := camera })) with
    | error e => rw [hv] at hst; simp at hst
    | ok st1 =>
      rw [hv] at hst
      simp only [pure, Except.pure, Except.ok.injEq] at hst
      have h1 := createVideoPage_frame fuel sizeLt keyLt _ _ hv
      rw [← hst]
      constructor
      · show st1.settingTree = _
        rw [h1.1]; rfl
      · show (((st1.stackedWidget.addWidget .logPage).addWidget .videoPage).addWidget
          .audioPage).widgets = _
        rw [h1.2]; rfl
  refine ⟨by rw [htree.1]; rfl, htree.2, ?_, ?_, ?_⟩
  · intro s previous i item hi
    rw [htree.1] at hi
    match i, hi with
    | 0, hi =>
      simp only [List.get?, Option.some.injEq] at hi
      subst hi
      rfl
    | 1, hi =>
      simp only [List.get?, Option.some.injEq] at hi
      subst hi
      rfl
    | 2, hi =>
      simp only [List.get?, Option.some.injEq] at hi
      subst hi
      rfl
    | n + 3, hi => simp [List.get?] at hi
  · intro s previous
    cases previous <;> rfl
  · intro s previous item h1 h2 h3
    simp [SettingDialog.changePage, h1, h2, h3]


/-- C7, witness: the dialog constructed without a camera. -/
theorem C7_page_switching_witness :
    dialogWithoutCamera.settingTree.map (fun item => item.text) =
      [qs "Log", qs "Video", qs "Audio"] ∧
    dialogWithoutCamera.stackedWidget.widgets =
      [PageId.logPage, PageId.videoPage, PageId.audioPage] ∧
    (∀ (s : SettingDialog) (previous : Option QTreeWidgetItem) (i : Nat) (item : QTreeWidgetItem),
      dialogWithoutCamera.settingTree.get? i = some item →
      s.changePage (some item) previous =
        .ok { s with queuedSetCurrentIndex := s.queuedSetCurrentIndex ++ [(i : Int)] }) ∧
    (∀ (s : SettingDialog) (previous : Option QTreeWidgetItem),
      s.changePage none previous = s.changePage previous previous) ∧
    (∀ (s : SettingDialog) (previous : Option QTreeWidgetItem) (item : QTreeWidgetItem),
      item.text ≠ qs "Log" → item.text ≠ qs "Video" → item.text ≠ qs "Audio" →
      s.changePage (some item) previous = .ok s) :=
  C7_page_switching 3 sizeLexLt keyLexLt none dialogWithoutCamera
    (construct_absent 3 sizeLexLt keyLexLt none rfl)

/-! ### The frame-rate range and the slider -/

theorem findChild_fpsSlider (box : QComboBox) (spin : FpsSpinBox) (slider : QSlider)
    (pixel : QComboBox) :
    findChild .QSlider (qs "fpsSlider") (videoPageOf box spin slider pixel) = some 5 := rfl

theorem findChild_fpsSpinBox (box : QComboBox) (spin : FpsSpinBox) (slider : QSlider)
    (pixel : QComboBox) :
    findChild .FpsSpinBox (qs "fpsSpinBox") (videoPageOf box spin slider pixel) = some 4 := rfl

theorem findChild_videoFormatBox (box : QComboBox) (spin : FpsSpinBox) (slider : QSlider)
    (pixel : QComboBox) :
    findChild .QComboBox (qs "videoFormatBox") (videoPageOf box spin slider pixel) = some 2 := rfl

/-- No child of the video page is a `QSlider` named "fpsSpinBox". -/
theorem findChild_slider_named_fpsSpinBox (box : QComboBox) (spin : FpsSpinBox)
    (slider : QSlider) (pixel : QComboBox) :
    findChild .QSlider (qs "fpsSpinBox") (videoPageOf box spin slider pixel) = none := rfl

theorem callSlider_videoPage (box : QComboBox) (spin : FpsSpinBox) (slider : QSlider)
    (pixel : QComboBox) (f : QSlider → QSlider) :
    callSlider (videoPageOf box spin slider pixel) (some 5) f =
      .ok (videoPageOf box spin (f slider) pixel) := rfl

theorem callSpinBox_videoPage (box : QComboBox) (spin : FpsSpinBox) (slider : QSlider)
    (pixel : QComboBox) (f : FpsSpinBox → FpsSpinBox) :
    callSpinBox (videoPageOf box spin slider pixel) (some 4) f =
      .ok (videoPageOf box (f spin) slider pixel) := rfl

theorem sliderAt_videoPage (box : QComboBox) (spin : FpsSpinBox) (slider : QSlider)
    (pixel : QComboBox) :
    sliderAt (videoPageOf box spin slider pixel) (some 5) = .ok slider := rfl

theorem comboBoxAt_videoPage (box : QComboBox) (spin : FpsSpinBox) (slider : QSlider)
    (pixel : QComboBox) :
    comboBoxAt (videoPageOf box spin slider pixel) (some 2) = .ok box := rfl

/-- The first element of a non-empty set is its least member, the last its greatest. -/
theorem set_begin_rbegin (S : IntSet) (hS : IsSet S) (hne : S ≠ []) :
    deref S 0 ∈ S ∧ (∀ x ∈ S, deref S 0 ≤ x) ∧
      deref S (S.length - 1) ∈ S ∧ ∀ x ∈ S, x ≤ deref S (S.length - 1) := by
  induction S with
  | nil => exact absurd rfl hne
  | cons y ys ih =>
    obtain ⟨hy, hys⟩ := isSet_cons hS
    have hfirst : ∀ x ∈ y :: ys, y ≤ x := by
      intro x hx
      rcases List.mem_cons.1 hx with rfl | hx
      · exact le_refl _
      · exact le_of_lt (hy x hx)
    refine ⟨by simp [deref], by simpa [deref] using hfirst, ?_⟩
    cases ys with
    | nil => simp [deref]
    | cons z zs =>
      obtain ⟨_, _, i3, i4⟩ := ih hys (by simp)
      have hd : deref (y :: z :: zs) ((y :: z :: zs).length - 1) =
          deref (z :: zs) ((z :: zs).length - 1) := by
        simp [deref]
      rw [hd]
      refine ⟨List.mem_cons_of_mem _ i3, ?_⟩
      intro x hx
      rcases List.mem_cons.1 hx with rfl | hx
      · exact le_of_lt (hy _ i3)
      · exact i4 x hx

/-- The snapping branch of `onFpsSliderValueChanged` always stops at a null pointer: when
the value is not found in the set of the current item, `setValue` is called through the result
of `findChild<QSlider*>("fpsSpinBox")`, which is null. -/
theorem onFpsSliderValueChanged_not_found (st : SettingDialog) (box pixel : QComboBox)
    (spin : FpsSpinBox) (slider : QSlider) (value : Int)
    (hp : st.videoPage = some (videoPageOf box spin slider pixel))
    (hv : setFind (variantValue (boxValue box)) value = (variantValue (boxValue box)).length) :
    st.onFpsSliderValueChanged value = .error .nullDereference := by
  unfold SettingDialog.onFpsSliderValueChanged
  simp only [hp, findChild_videoFormatBox, comboBoxAt_videoPage,
    findChild_slider_named_fpsSpinBox, bind, Except.bind, hv, if_true, callSlider]

/-- When the value is found in the set of the current item, `onFpsSliderValueChanged` does
nothing. -/
theorem onFpsSliderValueChanged_found (st : SettingDialog) (box pixel : QComboBox)
    (spin : FpsSpinBox) (slider : QSlider) (value : Int)
    (hp : st.videoPage = some (videoPageOf box spin slider pixel))
    (hv : setFind (variantValue (boxValue box)) value ≠ (variantValue (boxValue box)).length) :
    st.onFpsSliderValueChanged value = .ok st := by
  unfold SettingDialog.onFpsSliderValueChanged
  simp only [hp, findChild_videoFormatBox, comboBoxAt_videoPage,
    findChild_slider_named_fpsSpinBox, bind, Except.bind, hv, if_false, pure, Except.pure]

/-- C6, at the failing input: with the frame rates 30 and 60 on the selected item and the slider
moved to 45, `onFpsSliderValueChanged(45)` computes the nearest value 30 but has no slider to set
it on: the lookup of a `QSlider` named "fpsSpinBox" gives the null pointer (the slider is named
"fpsSlider", and the child named "fpsSpinBox" is a spin box), and the call through it stops the
run; the slider "fpsSlider" still holds 45, which is not a member of the set. -/
theorem C6_snap_reaches_no_slider :
    dialogSliderAt45.onFpsSliderValueChanged 45 = .error .nullDereference ∧
      nearestValue [30, 60] 45 = 30 ∧
      dialogSliderAt45.videoPageDeref.toOption.map (findChild .QSlider (qs "fpsSpinBox")) =
        some none ∧
      dialogSliderAt45.videoPageDeref.toOption.map (findChild .QSlider (qs "fpsSlider")) =
        some (some 5) ∧
      dialogSliderAt45.videoPageDeref.toOption.map (fun page => sliderAt page (some 5)) =
        some (.ok { minimum := 30, maximum := 60, value := 45 }) ∧
      (45 : Int) ∉ ([30, 60] : IntSet) := by
  refine ⟨?_, by decide, by decide, by decide, rfl, by decide⟩
  exact onFpsSliderValueChanged_not_found dialogSliderAt45 _ {} _ _ 45 rfl (by decide)


/-! ### Signal delivery on the video page -/

theorem withVideoPage_of (st : SettingDialog) (box pixel : QComboBox) (spin : FpsSpinBox)
    (slider : QSlider) (hp : st.videoPage = some (videoPageOf box spin slider pixel)) :
    st = withVideoPage st box spin slider pixel := by
  cases st
  simp only at hp
  simp [withVideoPage, hp]

theorem changeValue_slider (st : SettingDialog) (box pixel : QComboBox) (spin : FpsSpinBox)
    (slider : QSlider) (v : Int) :
    SettingDialog.changeValue .fpsSlider (withVideoPage st box spin slider pixel) v =
      if bound slider.minimum slider.maximum v = slider.value then .ok none
      else .ok (some (withVideoPage st box spin
        { slider with value := bound slider.minimum slider.maximum v } pixel,
        bound slider.minimum slider.maximum v)) := rfl

theorem changeValue_spinBox (st : SettingDialog) (box pixel : QComboBox) (spin : FpsSpinBox)
    (slider : QSlider) (v : Int) :
    SettingDialog.changeValue .fpsSpinBox (withVideoPage st box spin slider pixel) v =
      if bound spin.minimum spin.maximum v = spin.value then .ok none
      else .ok (some (withVideoPage st box
        { spin with value := bound spin.minimum spin.maximum v } slider pixel,
        bound spin.minimum spin.maximum v)) := rfl

/-- A `setValue` that leaves the slider at its value emits nothing. -/
theorem setValue_slider_same (fuel : Nat) (st : SettingDialog) (box pixel : QComboBox)
    (spin : FpsSpinBox) (slider : QSlider) (v : Int)
    (h : bound slider.minimum slider.maximum v = slider.value) :
    SettingDialog.setValue fuel .fpsSlider (withVideoPage st box spin slider pixel) v =
      .ok (withVideoPage st box spin slider pixel) := by
  cases fuel <;> simp [SettingDialog.setValue, changeValue_slider, h]

/-- A `setValue` that leaves the spin box at its value emits nothing. -/
theorem setValue_spinBox_same (fuel : Nat) (st : SettingDialog) (box pixel : QComboBox)
    (spin : FpsSpinBox) (slider : QSlider) (v : Int)
    (h : bound spin.minimum spin.maximum v = spin.value) :
    SettingDialog.setValue fuel .fpsSpinBox (withVideoPage st box spin slider pixel) v =
      .ok (withVideoPage st box spin slider pixel) := by
  cases fuel <;> simp [SettingDialog.setValue, changeValue_spinBox, h]

/-- With the connections of `createVideoPage` alone, a change of the slider value goes on to
the spin box. -/
theorem setValue_slider_step (fuel : Nat) (st : SettingDialog) (box pixel : QComboBox)
    (spin : FpsSpinBox) (slider : QSlider) (v : Int)
    (hc : st.connections = createVideoPageConnections)
    (h : bound slider.minimum slider.maximum v ≠ slider.value) :
    SettingDialog.setValue (fuel + 1) .fpsSlider (withVideoPage st box spin slider pixel) v =
      SettingDialog.setValue fuel .fpsSpinBox
        (withVideoPage st box spin
          { slider with value := bound slider.minimum slider.maximum v } pixel)
        (bound slider.minimum slider.maximum v) := by
  have hc1 : (withVideoPage st box spin
      { slider with value := bound slider.minimum slider.maximum v } pixel).connections =
      createVideoPageConnections := hc
  simp only [SettingDialog.setValue, changeValue_slider, h, if_false, hc1,
    createVideoPageConnections, SettingDialog.deliverAll, SettingDialog.slotOf]
  cases SettingDialog.setValue fuel .fpsSpinBox (withVideoPage st box spin
    { slider with value := bound slider.minimum slider.maximum v } pixel)
    (bound slider.minimum slider.maximum v) <;> rfl

/-- With the connections of `createVideoPage` alone, a change of the spin-box value goes on to
the slider. -/
theorem setValue_spinBox_step (fuel : Nat) (st : SettingDialog) (box pixel : QComboBox)
    (spin : FpsSpinBox) (slider : QSlider) (v : Int)
    (hc : st.connections = createVideoPageConnections)
    (h : bound spin.minimum spin.maximum v ≠ spin.value) :
    SettingDialog.setValue (fuel + 1) .fpsSpinBox (withVideoPage st box spin slider pixel) v =
      SettingDialog.setValue fuel .fpsSlider
        (withVideoPage st box { spin with value := bound spin.minimum spin.maximum v }
          slider pixel)
        (bound spin.minimum spin.maximum v) := by
  have hc1 : (withVideoPage st box { spin with value := bound spin.minimum spin.maximum v }
      slider pixel).connections = createVideoPageConnections := hc
  simp only [SettingDialog.setValue, changeValue_spinBox, h, if_false, hc1,
    createVideoPageConnections, SettingDialog.deliverAll, SettingDialog.slotOf]
  cases SettingDialog.setValue fuel .fpsSlider (withVideoPage st box
    { spin with value := bound spin.minimum spin.maximum v } slider pixel)
    (bound spin.minimum spin.maximum v) <;> rfl

theorem sliderSetRange_videoPage (fuel : Nat) (st : SettingDialog) (box pixel : QComboBox)
    (spin : FpsSpinBox) (slider : QSlider) (lo hi : Int) :
    SettingDialog.sliderSetRange fuel (withVideoPage st box spin slider pixel) lo hi =
      if slider.minimum = lo ∧ slider.maximum = max lo hi then
        .ok (withVideoPage st box spin slider pixel)
      else SettingDialog.setValue fuel .fpsSlider
        (withVideoPage st box spin { slider with minimum := lo, maximum := max lo hi } pixel)
        slider.value := rfl

theorem spinBoxSetRange_videoPage (fuel : Nat) (st : SettingDialog) (box pixel : QComboBox)
    (spin : FpsSpinBox) (slider : QSlider) (lo hi : Int) :
    SettingDialog.spinBoxSetRange fuel (withVideoPage st box spin slider pixel) lo hi =
      SettingDialog.setValue fuel .fpsSpinBox
        (withVideoPage st box { spin with minimum := lo, maximum := max lo hi } slider pixel)
        spin.value := rfl

theorem spinBoxSetValidValues_videoPage (st : SettingDialog) (box pixel : QComboBox)
    (spin : FpsSpinBox) (slider : QSlider) (S : IntSet) :
    SettingDialog.spinBoxSetValidValues (withVideoPage st box spin slider pixel) S =
      .ok (withVideoPage st box { spin with validValues := S } slider pixel) := rfl

theorem sliderValue_videoPage (st : SettingDialog) (box pixel : QComboBox)
    (spin : FpsSpinBox) (slider : QSlider) :
    SettingDialog.sliderValue (withVideoPage st box spin slider pixel) = .ok slider.value := rfl

/-- With the connections of `createVideoPage` alone, a `setValue` on the slider completes within
three nested deliveries, and changes nothing but the values of the slider and the spin box. -/
theorem setValue_slider_total (fuel : Nat) (hf : 3 ≤ fuel) (st : SettingDialog)
    (box pixel : QComboBox) (spin : FpsSpinBox) (slider : QSlider) (v : Int)
    (hc : st.connections = createVideoPageConnections) :
    ∃ p x, SettingDialog.setValue fuel .fpsSlider (withVideoPage st box spin slider pixel) v =
      .ok (withVideoPage st box { spin with value := p } { slider with value := x } pixel) := by
  obtain ⟨n, rfl⟩ : ∃ n, fuel = n + 3 := ⟨fuel - 3, by omega⟩
  by_cases h1 : bound slider.minimum slider.maximum v = slider.value
  · exact ⟨spin.value, slider.value, setValue_slider_same _ _ _ _ _ _ _ h1⟩
  · rw [setValue_slider_step _ _ _ _ _ _ _ hc h1]
    by_cases h2 : bound spin.minimum spin.maximum (bound slider.minimum slider.maximum v) =
        spin.value
    · exact ⟨spin.value, _, setValue_spinBox_same _ _ _ _ _ _ _ h2⟩
    · rw [setValue_spinBox_step _ _ _ _ _ _ _ hc h2]
      by_cases h3 : bound slider.minimum slider.maximum
          (bound spin.minimum spin.maximum (bound slider.minimum slider.maximum v)) =
          bound slider.minimum slider.maximum v
      · exact ⟨_, _, setValue_slider_same _ _ _ _ _ _ _ h3⟩
      · rw [setValue_slider_step _ _ _ _ _ _ _ hc (by exact h3)]
        refine ⟨_, _, setValue_spinBox_same _ _ _ _ _ _ _ ?_⟩
        simp only [bound]
        omega

/-- The same for a `setValue` on the spin box. -/
theorem setValue_spinBox_total (fuel : Nat) (hf : 3 ≤ fuel) (st : SettingDialog)
    (box pixel : QComboBox) (spin : FpsSpinBox) (slider : QSlider) (v : Int)
    (hc : st.connections = createVideoPageConnections) :
    ∃ p x, SettingDialog.setValue fuel .fpsSpinBox (withVideoPage st box spin slider pixel) v =
      .ok (withVideoPage st box { spin with value := p } { slider with value := x } pixel) := by
  obtain ⟨n, rfl⟩ : ∃ n, fuel = n + 3 := ⟨fuel - 3, by omega⟩
  by_cases h1 : bound spin.minimum spin.maximum v = spin.value
  · exact ⟨spin.value, slider.value, setValue_spinBox_same _ _ _ _ _ _ _ h1⟩
  · rw [setValue_spinBox_step _ _ _ _ _ _ _ hc h1]
    by_cases h2 : bound slider.minimum slider.maximum (bound spin.minimum spin.maximum v) =
        slider.value
    · exact ⟨_, slider.value, setValue_slider_same _ _ _ _ _ _ _ h2⟩
    · rw [setValue_slider_step _ _ _ _ _ _ _ hc h2]
      by_cases h3 : bound spin.minimum spin.maximum
          (bound slider.minimum slider.maximum (bound spin.minimum spin.maximum v)) =
          bound spin.minimum spin.maximum v
      · exact ⟨_, _, setValue_spinBox_same _ _ _ _ _ _ _ h3⟩
      · rw [setValue_spinBox_step _ _ _ _ _ _ _ hc (by exact h3)]
        refine ⟨_, _, setValue_slider_same _ _ _ _ _ _ _ ?_⟩
        simp only [bound]
        omega

theorem sliderSetRange_total (fuel : Nat) (hf : 3 ≤ fuel) (st : SettingDialog)
    (box pixel : QComboBox) (spin : FpsSpinBox) (slider : QSlider) (lo hi : Int)
    (hc : st.connections = createVideoPageConnections) :
    ∃ spin1 slider1, SettingDialog.sliderSetRange fuel
        (withVideoPage st box spin slider pixel) lo hi =
      .ok (withVideoPage st box spin1 slider1 pixel) := by
  rw [sliderSetRange_videoPage]
  split
  · exact ⟨spin, slider, rfl⟩
  · obtain ⟨p, x, h⟩ := setValue_slider_total fuel hf st box pixel spin
      { slider with minimum := lo, maximum := max lo hi } slider.value hc
    exact ⟨_, _, h⟩

theorem spinBoxSetRange_total (fuel : Nat) (hf : 3 ≤ fuel) (st : SettingDialog)
    (box pixel : QComboBox) (spin : FpsSpinBox) (slider : QSlider) (lo hi : Int)
    (hc : st.connections = createVideoPageConnections) :
    ∃ spin1 slider1, SettingDialog.spinBoxSetRange fuel
        (withVideoPage st box spin slider pixel) lo hi =
      .ok (withVideoPage st box spin1 slider1 pixel) := by
  rw [spinBoxSetRange_videoPage]
  obtain ⟨p, x, h⟩ := setValue_spinBox_total fuel hf st box pixel
    { spin with minimum := lo, maximum := max lo hi } slider spin.value hc
  exact ⟨_, _, h⟩

/-- With the connections of `createVideoPage` alone, `setFpsRange` completes in every state of
the slider and the spin box, and changes nothing but those two widgets and the connections. -/
theorem setFpsRange_total (fuel : Nat) (hf : 3 ≤ fuel) (st : SettingDialog)
    (box pixel : QComboBox) (spin : FpsSpinBox) (slider : QSlider) (S : IntSet)
    (hc : st.connections = createVideoPageConnections) :
    ∃ spin1 slider1 cs, SettingDialog.setFpsRange fuel (withVideoPage st box spin slider pixel) S =
      .ok { withVideoPage st box spin1 slider1 pixel with connections := cs } := by
  unfold SettingDialog.setFpsRange
  by_cases hne : S = []
  · exact ⟨spin, slider, st.connections, by rw [if_neg (by simpa using hne)]; rfl⟩
  · rw [if_pos hne]
    have h1 : ∃ spin1 slider1, SettingDialog.setFpsRangeSetters fuel
        (withVideoPage st box spin slider pixel) S =
        .ok (withVideoPage st box spin1 slider1 pixel) := by
      unfold SettingDialog.setFpsRangeSetters
      obtain ⟨p1, x1, e1⟩ := sliderSetRange_total fuel hf st box pixel spin slider
        (deref S 0) (deref S (S.length - 1)) hc
      obtain ⟨p2, x2, e2⟩ := setValue_slider_total fuel hf st box pixel p1 x1
        (deref S (S.length - 1)) hc
      obtain ⟨p3, x3, e3⟩ := spinBoxSetRange_total fuel hf st box pixel
        { p1 with value := p2 } { x1 with value := x2 } (deref S 0) (deref S (S.length - 1)) hc
      simp only [e1, e2, e3, spinBoxSetValidValues_videoPage]
      exact ⟨_, _, rfl⟩
    obtain ⟨spin1, slider1, e1⟩ := h1
    rw [e1]
    simp only [sliderValue_videoPage]
    split
    · rename_i e he
      split at he
      · obtain ⟨p, x, e2⟩ := setValue_slider_total fuel hf st box pixel spin1 slider1
          (deref S (S.length - 1)) hc
        rw [e2] at he
        exact absurd he (by simp)
      · exact absurd he (by simp)
    · rename_i st2 he
      split at he
      · obtain ⟨p, x, e2⟩ := setValue_slider_total fuel hf st box pixel spin1 slider1
          (deref S (S.length - 1)) hc
        rw [e2] at he
        cases he
        exact ⟨_, _, _, rfl⟩
      · cases he
        exact ⟨_, _, _, rfl⟩

theorem digitValue_digitChar (d : Nat) (h : d < 10) : digitValue (digitChar d) = some d := by
  interval_cases d <;> rfl

theorem isDigit_digitChar (d : Nat) (h : d < 10) : isDigit (digitChar d) = true := by
  simp [isDigit, digitValue_digitChar d h]

theorem isDigit_range (c : Char) (h : isDigit c = true) : 48 ≤ c.toNat ∧ c.toNat ≤ 57 := by
  unfold isDigit digitValue at h
  by_contra hc
  rw [if_neg hc] at h
  simp at h

/-- A digit is none of the characters the label and its parse treat specially. -/
theorem isDigit_plain (c : Char) (h : isDigit c = true) :
    c ≠ '%' ∧ c ≠ ' ' ∧ c ≠ 'x' ∧ c ≠ '-' ∧ c ≠ '+' ∧ isSpace c = false := by
  have hr := isDigit_range c h
  refine ⟨?_, ?_, ?_, ?_, ?_, ?_⟩
  · rintro rfl; revert hr; decide
  · rintro rfl; revert hr; decide
  · rintro rfl; revert hr; decide
  · rintro rfl; revert hr; decide
  · rintro rfl; revert hr; decide
  · unfold isSpace
    have h1 : ¬ c.toNat = 32 := by omega
    have h2 : ¬ c.toNat ≤ 13 := by omega
    simp [h1, h2]

theorem natDigitsAux_isDigit (fuel n : Nat) (acc : QString)
    (hacc : ∀ c ∈ acc, isDigit c = true) :
    ∀ c ∈ natDigitsAux fuel n acc, isDigit c = true := by
  induction fuel generalizing n acc with
  | zero => simpa [natDigitsAux] using hacc
  | succ fuel ih =>
    have hd : isDigit (digitChar (n % 10)) = true := isDigit_digitChar _ (Nat.mod_lt _ (by decide))
    have hacc1 : ∀ c ∈ digitChar (n % 10) :: acc, isDigit c = true := by
      intro c hc
      rcases List.mem_cons.1 hc with rfl | hc
      · exact hd
      · exact hacc c hc
    unfold natDigitsAux
    split
    · exact hacc1
    · exact ih _ _ hacc1

theorem natDigitsAux_ne_nil (fuel n : Nat) (acc : QString) :
    natDigitsAux (fuel + 1) n acc ≠ [] := by
  induction fuel generalizing n acc with
  | zero =>
    unfold natDigitsAux
    split
    · simp
    · simp [natDigitsAux]
  | succ fuel ih =>
    unfold natDigitsAux
    split
    · simp
    · exact ih _ _

/-- Reading back the digits written for `n`. -/
theorem natDigitsAux_value (fuel n : Nat) (acc : QString) (h : n < fuel) :
    (natDigitsAux fuel n acc).foldl (fun a c => a * 10 + (digitValue c).getD 0) 0 =
      acc.foldl (fun a c => a * 10 + (digitValue c).getD 0) n := by
  induction fuel generalizing n acc with
  | zero => omega
  | succ fuel ih =>
    have hd : digitValue (digitChar (n % 10)) = some (n % 10) :=
      digitValue_digitChar _ (Nat.mod_lt _ (by decide))
    unfold natDigitsAux
    split
    · rename_i h0
      simp only [List.foldl_cons, hd, Option.getD_some]
      have : 0 * 10 + n % 10 = n := by omega
      rw [this]
    · rename_i h0
      rw [ih (n / 10) _ (by omega)]
      simp only [List.foldl_cons, hd, Option.getD_some]
      have : n / 10 * 10 + n % 10 = n := by omega
      rw [this]

theorem natDigits_isDigit (n : Nat) : ∀ c ∈ natDigits n, isDigit c = true :=
  natDigitsAux_isDigit _ _ _ (by simp)

theorem natDigits_ne_nil (n : Nat) : natDigits n ≠ [] := natDigitsAux_ne_nil _ _ _

theorem digitsValue_natDigits (n : Nat) : digitsValue (natDigits n) = n := by
  unfold digitsValue natDigits
  rw [natDigitsAux_value _ _ _ (by omega)]
  rfl

/-- Every character of the text of a number is a digit or the minus sign. -/
theorem number_chars (n : Int) : ∀ c ∈ number n, isDigit c = true ∨ c = '-' := by
  intro c hc
  unfold number at hc
  split at hc
  · rcases List.mem_cons.1 hc with rfl | hc
    · exact Or.inr rfl
    · exact Or.inl (natDigits_isDigit _ c hc)
  · exact Or.inl (natDigits_isDigit _ c hc)

theorem number_plain (n : Int) :
    ∀ c ∈ number n, c ≠ '%' ∧ c ≠ ' ' ∧ c ≠ 'x' ∧ isSpace c = false := by
  intro c hc
  rcases number_chars n c hc with h | rfl
  · obtain ⟨h1, h2, h3, _, _, h6⟩ := isDigit_plain c h
    exact ⟨h1, h2, h3, h6⟩
  · decide

theorem dropWhile_eq_self_of_all_false {α : Type} (p : α → Bool) (l : List α)
    (h : ∀ a ∈ l, p a = false) : l.dropWhile p = l := by
  cases l with
  | nil => rfl
  | cons a as => simp [List.dropWhile, h a (List.mem_cons_self _ _)]

theorem trimmed_eq_self (s : QString) (h : ∀ c ∈ s, isSpace c = false) : trimmed s = s := by
  unfold trimmed
  rw [dropWhile_eq_self_of_all_false _ _ h,
    dropWhile_eq_self_of_all_false _ _ (by simpa using h), List.reverse_reverse]

/-- The round trip of an `int` through its text: `toInt` reads back what `number` wrote. -/
theorem toInt_number (n : Int) (h1 : -2147483648 ≤ n) (h2 : n < 2147483648) :
    toInt (number n) = n := by
  unfold toInt
  rw [trimmed_eq_self _ (fun c hc => (number_plain n c hc).2.2.2)]
  by_cases hn : n < 0
  · have hnum : number n = '-' :: natDigits n.natAbs := by simp [number, hn]
    have hall : (natDigits n.natAbs).all (fun c => (digitValue c).isSome) = true := by
      rw [List.all_eq_true]
      exact natDigits_isDigit _
    simp only [hnum, List.head?_cons, true_or, if_true, List.tail_cons, ne_eq,
      natDigits_ne_nil, not_false_eq_true, hall, and_self, digitsValue_natDigits]
    have : -(n.natAbs : Int) = n := by omega
    rw [this]
    simp [h1, h2]
  · have hnum : number n = natDigits n.toNat := by simp [number, hn]
    have hall : (natDigits n.toNat).all (fun c => (digitValue c).isSome) = true := by
      rw [List.all_eq_true]
      exact natDigits_isDigit _
    rw [hnum]
    cases hds : natDigits n.toNat with
    | nil => exact absurd hds (natDigits_ne_nil _)
    | cons c cs =>
      have hc : isDigit c = true := natDigits_isDigit n.toNat c (by rw [hds]; simp)
      obtain ⟨_, _, _, hm, hp, _⟩ := isDigit_plain c hc
      rw [← hds]
      have hh : (natDigits n.toNat).head? = some c := by rw [hds]; rfl
      have e1 : ¬ (some c = some '-') := by simpa using hm
      have e2 : ¬ (some c = some '+') := by simpa using hp
      simp only [hh, e1, e2, or_self, if_false, ne_eq, natDigits_ne_nil, not_false_eq_true,
        hall, and_self, if_true, digitsValue_natDigits, decide_False, Bool.false_eq_true]
      have : (n.toNat : Int) = n := by omega
      rw [this]
      simp [h1, h2]


/-! ### The resolution label -/

theorem scanPieces_append (t rest : QString) (h : ∀ c ∈ t, c ≠ '%') :
    scanPieces .normal (t ++ rest) = t.map Piece.text ++ scanPieces .normal rest := by
  induction t with
  | nil => rfl
  | cons c cs ih =>
    have hc : c ≠ '%' := h c (List.mem_cons_self _ _)
    simp only [List.cons_append, scanPieces, hc, if_false, List.map_cons, List.append_eq]
    rw [ih (fun d hd => h d (List.mem_cons_of_mem _ hd))]

theorem minMarker_text_append (t : QString) (ps : List Piece) :
    minMarker (t.map Piece.text ++ ps) = minMarker ps := by
  induction t with
  | nil => rfl
  | cons c cs ih => simpa [minMarker] using ih

theorem render_text_append (m : Nat) (a t : QString) (ps : List Piece) :
    render m a (t.map Piece.text ++ ps) = t ++ render m a ps := by
  induction t with
  | nil => rfl
  | cons c cs ih => simp [render, ih]

/-- Text without a percent sign in front of a format string passes through `arg` unchanged. -/
theorem arg_append (t rest a : QString) (h : ∀ c ∈ t, c ≠ '%') :
    arg (t ++ rest) a = t ++ arg rest a := by
  unfold arg
  rw [scanPieces_append t rest h, minMarker_text_append]
  cases minMarker (scanPieces .normal rest) with
  | none => rfl
  | some m => simp only [render_text_append]

theorem split_append (sep : Char) (t rest : QString) (h : ∀ c ∈ t, c ≠ sep) :
    split sep (t ++ sep :: rest) = t :: split sep rest := by
  induction t with
  | nil => simp [split]
  | cons c cs ih =>
    have hc : c ≠ sep := h c (List.mem_cons_self _ _)
    simp only [List.cons_append, split, hc, if_false, List.append_eq]
    rw [ih (fun d hd => h d (List.mem_cons_of_mem _ hd))]

theorem split_none (sep : Char) (t : QString) (h : ∀ c ∈ t, c ≠ sep) : split sep t = [t] := by
  induction t with
  | nil => rfl
  | cons c cs ih =>
    have hc : c ≠ sep := h c (List.mem_cons_self _ _)
    simp only [split, hc, if_false]
    rw [ih (fun d hd => h d (List.mem_cons_of_mem _ hd))]

/-- The label written out. -/
theorem itemText_eq (w h m M : Int) :
    itemText ⟨w, h⟩ m M =
      number w ++ qs "x" ++ number h ++ qs " [" ++ number m ++ qs " - " ++ number M ++
        qs " Hz]" := by
  have p : ∀ n : Int, ∀ c ∈ number n, c ≠ '%' := fun n c hc => (number_plain n c hc).1
  have s1 : arg (qs "%1x%2 [%3 - %4 Hz]") (number w) = number w ++ qs "x%2 [%3 - %4 Hz]" := rfl
  have s2 : arg (qs "x%2 [%3 - %4 Hz]") (number h) =
      qs "x" ++ (number h ++ qs " [%3 - %4 Hz]") := rfl
  have s3 : arg (qs " [%3 - %4 Hz]") (number m) = qs " [" ++ (number m ++ qs " - %4 Hz]") := rfl
  have s4 : arg (qs " - %4 Hz]") (number M) = qs " - " ++ (number M ++ qs " Hz]") := rfl
  have q : ∀ (t : QString), (∀ c ∈ t, c ≠ '%') → ∀ c ∈ t ++ qs "x", c ≠ '%' := by
    intro t ht c hc
    rcases List.mem_append.1 hc with hc | hc
    · exact ht c hc
    · have : c = 'x' := by simpa [qs] using hc
      rw [this]; decide
  unfold itemText
  simp only
  rw [s1, arg_append _ _ _ (p w), s2]
  rw [← List.append_assoc, ← List.append_assoc,
    arg_append (number w ++ qs "x" ++ number h) _ _ (by
      intro c hc
      rcases List.mem_append.1 hc with hc | hc
      · exact q _ (p w) c hc
      · exact p h c hc), s3]
  rw [← List.append_assoc, ← List.append_assoc,
    arg_append (number w ++ qs "x" ++ number h ++ qs " [" ++ number m) _ _ (by
      intro c hc
      rcases List.mem_append.1 hc with hc | hc
      · rcases List.mem_append.1 hc with hc | hc
        · rcases List.mem_append.1 hc with hc | hc
          · exact q _ (p w) c hc
          · exact p h c hc
        · have : c = ' ' ∨ c = '[' := by simpa [qs] using hc
          rcases this with rfl | rfl <;> decide
      · exact p m c hc), s4]
  simp only [List.append_assoc]

/-- The parse of a label gives back the resolution it was written for. -/
theorem parseResolution_itemText (w h m M : Int)
    (hw1 : -2147483648 ≤ w) (hw2 : w < 2147483648)
    (hh1 : -2147483648 ≤ h) (hh2 : h < 2147483648) :
    SettingDialog.parseResolution (itemText ⟨w, h⟩ m M) = .ok ⟨w, h⟩ := by
  have hsp : ∀ c ∈ number w ++ qs "x" ++ number h, c ≠ ' ' := by
    intro c hc
    rcases List.mem_append.1 hc with hc | hc
    · rcases List.mem_append.1 hc with hc | hc
      · exact (number_plain w c hc).2.1
      · have : c = 'x' := by simpa [qs] using hc
        rw [this]; decide
    · exact (number_plain h c hc).2.1
  have e : itemText ⟨w, h⟩ m M =
      (number w ++ qs "x" ++ number h) ++ ' ' :: (qs "[" ++ number m ++ qs " - " ++
        number M ++ qs " Hz]") := by
    rw [itemText_eq]
    simp [qs]
  have e2 : number w ++ qs "x" ++ number h = number w ++ 'x' :: number h := by
    simp [qs]
  unfold SettingDialog.parseResolution
  rw [e, split_append _ _ _ hsp]
  simp only
  rw [e2, split_append _ _ _ (fun c hc => (number_plain w c hc).2.2.1),
    split_none _ _ (fun c hc => (number_plain h c hc).2.2.1)]
  simp only [List.get?, toInt_number w hw1 hw2, toInt_number h hh1 hh2]


theorem callComboBox_videoPage (box : QComboBox) (spin : FpsSpinBox) (slider : QSlider)
    (pixel : QComboBox) (f : QComboBox → QComboBox) :
    callComboBox (videoPageOf box spin slider pixel) (some 2) f =
      .ok (videoPageOf (f box) spin slider pixel) := rfl

/-- Lines 176-180 of `createVideoPage` are the statements of the box handler, run on the dialog
with the connections of lines 166-174. -/
theorem createVideoPageWithCamera_eq (fuel : Nat) (sizeLt : QSize → QSize → Bool)
    (keyLt : VideoFormatKey → VideoFormatKey → Bool) (st st1 : SettingDialog)
    (videoFormats : List QCameraFormat)
    (h : SettingDialog.populateResolutionBox sizeLt keyLt st videoFormats = .ok st1) :
    SettingDialog.createVideoPageWithCamera fuel sizeLt keyLt st videoFormats =
      SettingDialog.videoFormatBoxIndexChanged fuel
        { st1 with connections := st1.connections ++ createVideoPageConnections } := by
  unfold SettingDialog.createVideoPageWithCamera SettingDialog.videoFormatBoxIndexChanged
    SettingDialog.videoPageDeref
  rw [h]
  cases hp : st1.videoPage <;> simp only [hp, createVideoPageConnections]

/-- The handler of the box, run after the constructor on a dialog whose slider the user has
moved, can stop at the null pointer of `onFpsSliderValueChanged`: with 1280x720 at 30 and 60 and
1920x1080 at 25, 50 and 90 frames per second, the slider moved to 30 and the second item picked,
`setFpsRange({25, 50, 90})` sets the slider to 90, the spin box (range still 30 to 60) answers
60, the slider takes 60 and emits it, and 60 is not in the set. -/
theorem videoFormatBoxIndexChanged_null_slider :
    ∀ fuel : Nat, 3 ≤ fuel →
    (match SettingDialog.construct fuel sizeLexLt keyLexLt (some cameraTwoResolutions) with
      | .error e => Except.error e
      | .ok st =>
        match st.setValue fuel .fpsSlider 30 with
        | .error e => Except.error e
        | .ok st1 =>
          match pickResolution st1 1 with
          | .error e => Except.error e
          | .ok st2 => st2.videoFormatBoxIndexChanged fuel) = .error .nullDereference := by
  intro fuel hf
  obtain ⟨n, rfl⟩ : ∃ n, fuel = n + 3 := ⟨fuel - 3, by omega⟩
  cases n <;> rfl

/-- C10: for every resolution (w, h) of `int`s and every non-empty set of frame rates, with `m`
its first (least) and `M` its last (greatest) member, the item `populateResolutionBox` adds to
the resolution box has the text `<w>x<h> [<m> - <M> Hz]`, the numbers in decimal; the parse of
that text as the handler of the box does it (the part before the first blank, split at `x`,
both parts through `toInt`) gives (w, h). In `createVideoPage`, when the box filled by
`populateResolutionBox` shows that text, lines 176-180 complete and leave
`m_currentResolution = (w, h)`; and the handler, run with that text current, does what its
call of `setFpsRange` does and, when that call completes, sets `m_currentResolution = (w, h)`. -/
theorem C10_resolution_label_round_trip (w h : Int) (S : IntSet)
    (hw1 : -2147483648 ≤ w) (hw2 : w < 2147483648)
    (hh1 : -2147483648 ≤ h) (hh2 : h < 2147483648)
    (hS : IsSet S) (hne : S ≠ []) :
    (deref S 0 ∈ S ∧ ∀ x ∈ S, deref S 0 ≤ x) ∧
    (deref S (S.length - 1) ∈ S ∧ ∀ x ∈ S, x ≤ deref S (S.length - 1)) ∧
    (∀ (st : SettingDialog) (box pixel : QComboBox) (spin : FpsSpinBox) (slider : QSlider),
      st.videoPage = some (videoPageOf box spin slider pixel) →
      st.addResolutionItem ⟨w, h⟩ S = .ok { st with
        videoPage := some (videoPageOf
          (box.addItem (itemText ⟨w, h⟩ (deref S 0) (deref S (S.length - 1))) (some S))
          spin slider pixel) }) ∧
    itemText ⟨w, h⟩ (deref S 0) (deref S (S.length - 1)) =
      number w ++ qs "x" ++ number h ++ qs " [" ++ number (deref S 0) ++ qs " - " ++
        number (deref S (S.length - 1)) ++ qs " Hz]" ∧
    SettingDialog.parseResolution (itemText ⟨w, h⟩ (deref S 0) (deref S (S.length - 1))) =
      .ok ⟨w, h⟩ ∧
    (∀ (fuel : Nat) (sizeLt : QSize → QSize → Bool)
        (keyLt : VideoFormatKey → VideoFormatKey → Bool) (st st1 : SettingDialog)
        (videoFormats : List QCameraFormat) (box pixel : QComboBox) (spin : FpsSpinBox)
        (slider : QSlider),
      3 ≤ fuel →
      SettingDialog.populateResolutionBox sizeLt keyLt st videoFormats = .ok st1 →
      st1.videoPage = some (videoPageOf box spin slider pixel) →
      st1.connections = [] →
      box.currentText = itemText ⟨w, h⟩ (deref S 0) (deref S (S.length - 1)) →
      ∃ st2, SettingDialog.createVideoPageWithCamera fuel sizeLt keyLt st videoFormats = .ok st2 ∧
        st2.m_currentResolution = ⟨w, h⟩) ∧
    (∀ (fuel : Nat) (st : SettingDialog) (box pixel : QComboBox) (spin : FpsSpinBox)
        (slider : QSlider),
      st.videoPage = some (videoPageOf box spin slider pixel) →
      box.currentText = itemText ⟨w, h⟩ (deref S 0) (deref S (S.length - 1)) →
      st.videoFormatBoxIndexChanged fuel =
        match st.setFpsRange fuel (variantValue (boxValue box)) with
        | .error e => .error e
        | .ok st1 => .ok { st1 with m_currentResolution := ⟨w, h⟩ }) := by
  obtain ⟨m1, m2, m3, m4⟩ := set_begin_rbegin S hS hne
  have hparse := parseResolution_itemText w h (deref S 0) (deref S (S.length - 1))
    hw1 hw2 hh1 hh2
  have hhandler : ∀ (fuel : Nat) (st : SettingDialog) (box pixel : QComboBox)
      (spin : FpsSpinBox) (slider : QSlider),
      st.videoPage = some (videoPageOf box spin slider pixel) →
      box.currentText = itemText ⟨w, h⟩ (deref S 0) (deref S (S.length - 1)) →
      st.videoFormatBoxIndexChanged fuel =
        match st.setFpsRange fuel (variantValue (boxValue box)) with
        | .error e => .error e
        | .ok st1 => .ok { st1 with m_currentResolution := ⟨w, h⟩ } := by
    intro fuel st box pixel spin slider hp htext
    unfold SettingDialog.videoFormatBoxIndexChanged
    simp only [hp, findChild_videoFormatBox, comboBoxAt_videoPage, htext, hparse]
  refine ⟨⟨m1, m2⟩, ⟨m3, m4⟩, ?_, itemText_eq _ _ _ _, hparse, ?_, hhandler⟩
  · intro st box pixel spin slider hp
    unfold SettingDialog.addResolutionItem
    simp only [hne, ne_eq, not_false_eq_true, if_true, hp, findChild_videoFormatBox,
      callComboBox_videoPage, bind, Except.bind, pure, Except.pure]
  · intro fuel sizeLt keyLt st st1 videoFormats box pixel spin slider hf hpop hp hconn htext
    rw [createVideoPageWithCamera_eq fuel sizeLt keyLt st st1 videoFormats hpop]
    have hp2 : ({ st1 with connections := st1.connections ++ createVideoPageConnections } :
        SettingDialog).videoPage = some (videoPageOf box spin slider pixel) := hp
    have hc2 : ({ st1 with connections := st1.connections ++ createVideoPageConnections } :
        SettingDialog).connections = createVideoPageConnections := by
      simp only [hconn, List.nil_append]
    rw [hhandler fuel _ box pixel spin slider hp2 htext]
    obtain ⟨spin1, slider1, cs, htotal⟩ := setFpsRange_total fuel hf
      { st1 with connections := st1.connections ++ createVideoPageConnections }
      box pixel spin slider (variantValue (boxValue box)) hc2
    rw [← withVideoPage_of _ box pixel spin slider hp2] at htotal
    rw [htotal]
    exact ⟨_, rfl, rfl⟩

/-- C10, witness: the resolution 1920x1080 with the frame rates 30 and 60. -/
theorem C10_resolution_label_round_trip_witness :
    SettingDialog.parseResolution (itemText ⟨1920, 1080⟩ 30 60) = .ok ⟨1920, 1080⟩ ∧
    itemText ⟨1920, 1080⟩ 30 60 = qs "1920x1080 [30 - 60 Hz]" ∧
    ∃ st2, SettingDialog.createVideoPageWithCamera 3 sizeLexLt keyLexLt
        { camera := none, videoPage := some (videoPageOf {} {} {} {}) }
        [⟨some ⟨⟨1920, 1080⟩, 30, 30, 1⟩⟩, ⟨some ⟨⟨1920, 1080⟩, 60, 60, 1⟩⟩] = .ok st2 ∧
      st2.m_currentResolution = ⟨1920, 1080⟩ :=
  have t := C10_resolution_label_round_trip 1920 1080 [30, 60] (by decide) (by decide)
    (by decide) (by decide) (by decide) (by decide)
  ⟨t.2.2.2.2.1, by decide,
    t.2.2.2.2.2.1 3 sizeLexLt keyLexLt
      { camera := none, videoPage := some (videoPageOf {} {} {} {}) }
      _ [⟨some ⟨⟨1920, 1080⟩, 30, 30, 1⟩⟩, ⟨some ⟨⟨1920, 1080⟩, 60, 60, 1⟩⟩]
      { items := [(qs "1920x1080 [30 - 60 Hz]", some [30, 60])], currentIndex := 0 } {} {} {}
      (by decide) rfl rfl rfl (by decide)⟩

end Openterface
